import Mathlib

/-!
Shallow embedding of the payment-intent reconciliation logic of
`src/app/api/pagment/route.ts` and of the coupon-validation logic of
`src/app/api/pagment/cupom/route.ts`.

Modelling conventions:

* JS numbers are modelled by the exact fraction type `JsNum` (all the
  arithmetic the embedded code performs is exact in double precision at
  the observable cent granularity for the fixed plan-price table, so an
  exact model is faithful).  `Math.round` is `jsRound`, rounding half
  towards positive infinity as ECMAScript does; `x.toFixed(2)` is exact
  rounding to hundredths; the `Number.EPSILON` nudge in `toCents` is a
  float-artifact mitigation that is the identity in exact arithmetic.
* `crypto.createHash("sha256")...digest("hex")` is an opaque
  deterministic primitive of the runtime; the embedding abstracts it as a
  function parameter `sha : String → String` applied to the same seed
  strings the source builds.  Likewise HMAC-SHA256 is abstracted as
  `hmac : String → String → String` (secret, data) and the
  base64url+JSON decoding of a receipt-token payload as a parameter
  `decodePayload : String → Option ReceiptPayload`.
* The process-local mutable map `intentStore` is explicit read state
  (`store : String → Option IntentRec`); the write a request performs is
  reported in the result field `newIntent` instead of mutating.
* The Mercado Pago gateway is modelled by `Gateway`: a total lookup of
  payments by id (a present payment answers the `GET` with 200, an
  absent one makes the fetch fail), the search-by-external_reference
  result list, and the record the gateway would answer to a create call.
  Gateway calls issued while handling a request are recorded in an
  explicit trace (`List GwCall`); create calls record the transaction
  amount in integer cents (the wire value is that amount divided by 100).
* The embedding of `POST /api/pagment` starts at the parsed JSON body
  (`Body`), i.e. after the rate-limit / origin / body-size / content-type
  guards, which is where every claim under study lives.  `Date.now()` is
  a single `now : ℤ` (milliseconds); the `crypto.randomUUID()` results
  are the parameters `traceId` and `uuid`.  ISO date strings held by
  coupons are modelled already parsed (`Option ℤ`, `Date.parse`
  milliseconds, `none` for absent/unparsable), and response fields that
  no claim mentions (QR codes, ticket urls, barcodes) are omitted.
-/

namespace Pagment

/-! ## Exact JS-number arithmetic -/

/-- Exact fraction model of a JS number: `num / den` with positive
denominator.  Kept unreduced so that every operation is a plain
integer computation. -/
structure JsNum where
  num : ℤ
  den : ℕ
  dpos : 0 < den := by decide

instance : DecidableEq JsNum := fun x y =>
  decidable_of_iff (x.num = y.num ∧ x.den = y.den)
    (by cases x; cases y; simp)

/-- Embed an integer. -/
def JsNum.ofInt (n : ℤ) : JsNum := ⟨n, 1, by decide⟩

/-- Multiplication of JS numbers. -/
def JsNum.mul (x y : JsNum) : JsNum :=
  ⟨x.num * y.num, x.den * y.den, Nat.mul_pos x.dpos y.dpos⟩

/-- Comparison `x ≤ y` by cross-multiplication. -/
def JsNum.le (x y : JsNum) : Prop := x.num * (y.den : ℤ) ≤ y.num * (x.den : ℤ)

/-- Comparison `x < y` by cross-multiplication. -/
def JsNum.lt (x y : JsNum) : Prop := x.num * (y.den : ℤ) < y.num * (x.den : ℤ)

instance (x y : JsNum) : Decidable (x.le y) := by unfold JsNum.le; infer_instance

instance (x y : JsNum) : Decidable (x.lt y) := by unfold JsNum.lt; infer_instance

/-- JS `Math.max` on two numbers. -/
def JsNum.maxJ (x y : JsNum) : JsNum := if x.lt y then y else x

/-- JS `Math.min` on two numbers. -/
def JsNum.minJ (x y : JsNum) : JsNum := if y.lt x then y else x

/-- The rational value of a `JsNum` (used in proofs only). -/
def JsNum.toQ (x : JsNum) : ℚ := (x.num : ℚ) / (x.den : ℚ)

/-- ECMAScript `Math.round x = ⌊x + 1/2⌋`, computed on the fraction. -/
def jsRound (x : JsNum) : ℤ := (2 * x.num + (x.den : ℤ)) / (2 * (x.den : ℤ))

/-- `toCents` from route.ts: `Math.max(0, Math.round((v + ε) * 100))`. -/
def toCents (v : JsNum) : ℤ := max 0 (jsRound (v.mul (JsNum.ofInt 100)))

/-- `Number(x.toFixed(2))`: the value rounded to two decimals. -/
def toFixed2 (v : JsNum) : JsNum := ⟨jsRound (v.mul (JsNum.ofInt 100)), 100, by decide⟩

theorem jsRound_eq_floor (x : JsNum) : jsRound x = ⌊x.toQ + 1/2⌋ := by
  have hdz : (x.den : ℚ) ≠ 0 := Nat.cast_ne_zero.mpr (Nat.pos_iff_ne_zero.mp x.dpos)
  have hval : x.toQ + 1/2 = ((2 * x.num + (x.den : ℤ) : ℤ) : ℚ) / ((2 * x.den : ℕ) : ℚ) := by
    unfold JsNum.toQ
    push_cast
    field_simp
    ring
  rw [jsRound, hval, Rat.floor_intCast_div_natCast]
  norm_num

example : jsRound (JsNum.mul ⟨199, 10, by decide⟩ (JsNum.ofInt 100)) = 1990 := by decide
example : toCents ⟨1, 1000, by decide⟩ = 0 := by decide
example : toCents ⟨1, 100, by decide⟩ = 1 := by decide

/-! ## String helpers

Core `String` functions that are implemented with `partial` auxiliaries
(`trim`, `split`, `map`, ...) do not reduce in the kernel, so the
embedding re-implements them on `List Char`. -/

/-- JS whitespace test (ASCII approximation, same as on every input the
claims touch). -/
def isWs (c : Char) : Bool := c.isWhitespace

/-- Trim both ends of a char list. -/
def trimL (l : List Char) : List Char :=
  ((l.dropWhile isWs).reverse.dropWhile isWs).reverse

/-- JS `s.trim()`. -/
def jsTrim (s : String) : String := String.mk (trimL s.data)

/-- Take the first `n` characters (JS `slice(0, n)`). -/
def strTake (s : String) (n : ℕ) : String := String.mk (s.data.take n)

/-- JS `s.toUpperCase()` restricted to ASCII. -/
def toUpperStr (s : String) : String := String.mk (s.data.map Char.toUpper)

/-- JS `s.toLowerCase()` restricted to ASCII. -/
def toLowerStr (s : String) : String := String.mk (s.data.map Char.toLower)

/-- `onlyDigits` from route.ts: `v.replace(/\D/g, "")`. -/
def onlyDigits (s : String) : String := String.mk (s.data.filter Char.isDigit)

/-- JS truthiness-based string fallback `a || b`. -/
def jsOr (a b : String) : String := if a = "" then b else a

/-- Split a char list at every occurrence of `c` (JS `s.split(c)`). -/
def splitOnChar (c : Char) : List Char → List (List Char)
  | [] => [[]]
  | a :: rest =>
    match splitOnChar c rest with
    | [] => [[a]]
    | h :: t => if a = c then [] :: h :: t else (a :: h) :: t

/-- Split a char list at every whitespace character. -/
def splitWs : List Char → List (List Char)
  | [] => [[]]
  | a :: rest =>
    match splitWs rest with
    | [] => [[a]]
    | h :: t => if isWs a then [] :: h :: t else (a :: h) :: t

/-- Join char lists with a separator char. -/
def joinSep (c : Char) : List (List Char) → List Char
  | [] => []
  | [x] => x
  | x :: rest => x ++ c :: joinSep c rest

/-- Collapse whitespace runs to single spaces and trim
(`v.trim().replace(/\s+/g, " ").trim()`). -/
def collapseWs (s : String) : String :=
  String.mk (joinSep ' ' ((splitWs s.data).filter (fun t => t ≠ [])))

example : collapseWs "  Ana   Silva " = "Ana Silva" := by decide
example : splitOnChar '.' "a.b.c".data = ["a".data, "b".data, "c".data] := by decide
example : jsTrim "  x " = "x" := by decide

/-! ## Domain types -/

inductive Plan where
  | starter
  | pro
  | premium
deriving DecidableEq

inductive Billing where
  | monthly
  | annual
deriving DecidableEq

inductive Method where
  | card
  | pix
  | boleto
deriving DecidableEq

/-- `PLAN_PRICES` table from route.ts (BRL per month). -/
def PLAN_PRICES (b : Billing) (p : Plan) : JsNum :=
  match b, p with
  | .monthly, .starter => ⟨149, 10, by decide⟩
  | .monthly, .pro => ⟨199, 10, by decide⟩
  | .monthly, .premium => ⟨2299, 100, by decide⟩
  | .annual, .starter => ⟨1249, 100, by decide⟩
  | .annual, .pro => ⟨1659, 100, by decide⟩
  | .annual, .premium => ⟨2079, 100, by decide⟩

def methodStr : Method → String
  | .card => "card"
  | .pix => "pix"
  | .boleto => "boleto"

def planStr : Plan → String
  | .starter => "starter"
  | .pro => "pro"
  | .premium => "premium"

def billingStr : Billing → String
  | .monthly => "monthly"
  | .annual => "annual"

/-- `normalizeMethod` from route.ts. -/
def normalizeMethod : Option String → Option Method
  | some "pix" => some .pix
  | some "boleto" => some .boleto
  | some "card" => some .card
  | _ => none

/-- `normalizePlan` from route.ts. -/
def normalizePlan : Option String → Option Plan
  | some "starter" => some .starter
  | some "pro" => some .pro
  | some "premium" => some .premium
  | _ => none

/-- `normalizeBilling` from route.ts. -/
def normalizeBilling : Option String → Option Billing
  | some "monthly" => some .monthly
  | some "annual" => some .annual
  | _ => none

/-- `billingMonths` from route.ts: annual is charged as 12 months. -/
def billingMonths : Billing → ℤ
  | .annual => 12
  | .monthly => 1

/-! ## Input normalization and validators -/

/-- Characters allowed in a coupon code (`[A-Z0-9_-]`). -/
def isCouponChar (c : Char) : Bool :=
  "ABCDEFGHIJKLMNOPQRSTUVWXYZ0123456789_-".data.contains c

/-- `normalizeCouponCode` from route.ts: trim, uppercase, strip
disallowed characters, truncate to 32. -/
def normalizeCouponCode (v : Option String) : String :=
  let raw := v.getD ""
  strTake (String.mk ((toUpperStr (jsTrim raw)).data.filter isCouponChar)) 32

/-- Characters allowed in an order id (`[a-zA-Z0-9_-]`). -/
def isOrderIdChar (c : Char) : Bool := c.isAlphanum || c = '_' || c = '-'

/-- `normalizeOrderId` from route.ts. -/
def normalizeOrderId (v : Option String) : Option String :=
  match v with
  | none => none
  | some raw =>
    let r := jsTrim raw
    if r = "" then none
    else if r.length > 64 then none
    else if r.data.all isOrderIdChar then some r
    else none

/-- `normalizeRevision` from route.ts; a non-numeric body field is
modelled as `none` (both give 0). -/
def normalizeRevision (v : Option ℤ) : ℤ :=
  match v with
  | none => 0
  | some n => if n < 0 then 0 else if n > 1000000 then 1000000 else n

/-- `normalizePaymentId` from route.ts: keep digits, truncate to 32. -/
def normalizePaymentId (v : Option String) : String :=
  strTake (onlyDigits (v.getD "")) 32

/-- `normalizeText` from route.ts: strip control characters, trim,
truncate. -/
def normalizeText (v : Option String) (maxLen : ℕ) : String :=
  strTake (jsTrim (String.mk ((v.getD "").data.filter
    (fun c => !(c.toNat < 32 || c.toNat = 127))))) maxLen

/-- Domain part test of the email regex
`^[^\s@]+@[^\s@]+\.[^\s@]{2,}$`: some dot preceded by at least one
character and followed by at least two. -/
def domainDotOk (l : List Char) : Bool :=
  (List.range l.length).any (fun i =>
    l.get? i = some '.' && 1 ≤ i && i + 3 ≤ l.length)

/-- `isValidEmailBasic` from route.ts. -/
def isValidEmailBasic (v : String) : Bool :=
  let s := jsTrim v
  if s = "" then false
  else if s.length > 180 then false
  else
    match splitOnChar '@' s.data with
    | [lpart, domain] =>
      !lpart.isEmpty && lpart.all (fun c => !isWs c) &&
        domain.all (fun c => !isWs c) && domainDotOk domain
    | _ => false

/-- `splitName` from route.ts. -/
def splitName (full : String) : String × String :=
  let clean := collapseWs full
  if clean = "" then ("", "")
  else
    let parts := splitOnChar ' ' clean.data
    (String.mk (parts.headD []), String.mk (joinSep ' ' (parts.drop 1)))

/-- Digit value of a character. -/
def digitVal (c : Char) : ℕ := c.toNat - 48

/-- Verifier-digit computation of `isValidCpfDigits`. -/
def cpfCalc (base : List ℕ) (factor : ℕ) : ℕ :=
  let total := (base.enum.map (fun p => p.2 * (factor - p.1))).sum
  let m := total % 11
  if m < 2 then 0 else 11 - m

/-- `isValidCpfDigits` from route.ts. -/
def isValidCpfDigits (cpfDigits : String) : Bool :=
  let cpf := onlyDigits cpfDigits
  if cpf.length ≠ 11 then false
  else
    match cpf.data with
    | [] => false
    | c :: rest =>
      if rest.all (fun x => x = c) then false
      else
        let ds := (c :: rest).map digitVal
        let d1 := cpfCalc (ds.take 9) 10
        let d2 := cpfCalc (ds.take 9 ++ [d1]) 11
        ds.drop 9 = [d1, d2]

example : isValidCpfDigits "52998224725" = true := by decide
example : isValidCpfDigits "52998224724" = false := by decide
example : isValidCpfDigits "11111111111" = false := by decide
example : isValidEmailBasic "a@b.com" = true := by decide
example : isValidEmailBasic "a@b.c" = false := by decide
example : isValidEmailBasic "a b@c.com" = false := by decide
example : normalizeCouponCode (some " devs10% ") = "DEVS10" := by decide
example : normalizePaymentId (some " 12a34 ") = "1234" := by decide

/-! ## Coupon evaluation (route.ts `evaluateCoupon`) -/

inductive CouponType where
  | percent
  | fixed
  | target_total
deriving DecidableEq

/-- A coupon definition as produced by `loadCoupons()` (the test coupon
and the entries parsed from `COUPONS_JSON`).  The ISO window bounds are
modelled already parsed to epoch milliseconds (`parseIsoToMs`). -/
structure CouponDef where
  code : String
  active : Bool := true
  type : CouponType
  value : JsNum
  starts_at : Option ℤ := none
  ends_at : Option ℤ := none
  min_total : Option JsNum := none
  plans : Option (List Plan) := none
  billings : Option (List Billing) := none
deriving DecidableEq

/-- Result union of `evaluateCoupon`. -/
inductive CouponEval where
  | ok (applied : Bool) (code : Option String) (discountCents : ℤ)
      (finalCents : ℤ) (label : Option String) (type : Option CouponType)
  | err (message : String)
deriving DecidableEq

/-- Truthy-guarded window check: `startMs && now < startMs` (a `null` or
epoch-zero parse is falsy). -/
def windowBlocksBefore (bound : Option ℤ) (now : ℤ) : Bool :=
  match bound with
  | some t => t ≠ 0 && now < t
  | none => false

/-- Truthy-guarded window check: `endMs && now > endMs`. -/
def windowBlocksAfter (bound : Option ℤ) (now : ℤ) : Bool :=
  match bound with
  | some t => t ≠ 0 && now > t
  | none => false

/-- Plan restriction check: `Array.isArray(plans) && plans.length &&
!plans.includes(plan)`. -/
def planBlocked (plans : Option (List Plan)) (plan : Plan) : Bool :=
  match plans with
  | some ps => !ps.isEmpty && !ps.contains plan
  | none => false

/-- Billing restriction check. -/
def billingBlocked (billings : Option (List Billing)) (billing : Billing) : Bool :=
  match billings with
  | some bs => !bs.isEmpty && !bs.contains billing
  | none => false

/-- `def.min_total ? toCents(def.min_total) : 0` (0 is falsy). -/
def minTotalCentsOf (minTotal : Option JsNum) : ℤ :=
  match minTotal with
  | some m => if m.num = 0 then 0 else toCents m
  | none => 0

/-- The clamped percentage `Math.min(100, Math.max(0, value))`. -/
def pctClamp (v : JsNum) : JsNum :=
  JsNum.minJ (JsNum.ofInt 100) (JsNum.maxJ (JsNum.ofInt 0) v)

/-- Pre-clamp final amount per coupon type (the `if/else if` ladder of
`evaluateCoupon`). -/
def couponFinal0 (t : CouponType) (value : JsNum) (baseCents : ℤ) : ℤ :=
  match t with
  | .percent =>
    baseCents - jsRound ⟨baseCents * (pctClamp value).num, (pctClamp value).den * 100,
      Nat.mul_pos (pctClamp value).dpos (by decide)⟩
  | .fixed => baseCents - toCents value
  | .target_total => min baseCents (toCents value)

/-- `evaluateCoupon` from route.ts, with the loaded coupon list passed
in for `loadCoupons()`. -/
def evaluateCoupon (now : ℤ) (coupons : List CouponDef) (code : String)
    (plan : Plan) (billing : Billing) (baseCents : ℤ) : CouponEval :=
  if code = "" then .ok false none 0 baseCents none none
  else
    match coupons.find? (fun c => c.code = code) with
    | none => .err "Cupom invalido ou inativo."
    | some d =>
      if d.active = false then .err "Cupom invalido ou inativo."
      else if windowBlocksBefore d.starts_at now then .err "Cupom ainda nao comecou."
      else if windowBlocksAfter d.ends_at now then .err "Cupom expirado."
      else if planBlocked d.plans plan then .err "Cupom nao e valido para este plano."
      else if billingBlocked d.billings billing then .err "Cupom nao e valido para esta recorrencia."
      else if minTotalCentsOf d.min_total ≠ 0 ∧ baseCents < minTotalCentsOf d.min_total then
        .err "Cupom nao atende ao valor minimo."
      else
        let finalCents := max (couponFinal0 d.type d.value baseCents) 1
        let discountCents := max 0 (baseCents - finalCents)
        .ok true (some code) discountCents finalCents
          (some ("Cupom (" ++ code ++ ")")) (some d.type)

example :
    evaluateCoupon 0 [{code := "DEVS", type := .target_total, value := ⟨1, 100, by decide⟩}]
      "DEVS" .pro .monthly 1990 =
    .ok true (some "DEVS") 1989 1 (some "Cupom (DEVS)") (some .target_total) := by decide

example :
    evaluateCoupon 0 [{code := "HALF", type := .percent, value := JsNum.ofInt 50}]
      "HALF" .pro .monthly 1990 =
    .ok true (some "HALF") 995 995 (some "Cupom (HALF)") (some .percent) := by decide

/-! ## Statuses, fingerprint, idempotency key, minimums -/

/-- `isCancellableStatus` from route.ts. -/
def isCancellableStatus (status : String) : Bool :=
  let s := toLowerStr status
  if s = "" then false
  else if s = "approved" then false
  else if s = "cancelled" then false
  else s = "pending" || s = "in_process" || s = "authorized" || s = "in_mediation"

/-- `isFinalStatus` from route.ts. -/
def isFinalStatus (status : String) : Bool :=
  let s := toLowerStr status
  s = "approved" || s = "rejected" || s = "cancelled" || s = "refunded" ||
    s = "charged_back"

/-- Zero-padded two-digit rendering. -/
def natPad2 (n : ℕ) : String := if n < 10 then "0" ++ Nat.repr n else Nat.repr n

/-- Render a nonnegative cent count as a `toFixed(2)` string. -/
def fixed2StrNat (n : ℕ) : String := Nat.repr (n / 100) ++ "." ++ natPad2 (n % 100)

/-- `Number(x).toFixed(2)` as a string, from the exact value. -/
def fixed2Str (x : JsNum) : String :=
  let c := jsRound (x.mul (JsNum.ofInt 100))
  if c < 0 then "-" ++ fixed2StrNat c.natAbs else fixed2StrNat c.natAbs

/-- Render integer cents as the `toFixed(2)` string of `cents / 100`. -/
def fixed2StrCents (c : ℤ) : String :=
  if c < 0 then "-" ++ fixed2StrNat c.natAbs else fixed2StrNat c.natAbs

example : fixed2StrCents 1990 = "19.90" := by decide
example : fixed2StrCents 5 = "0.05" := by decide

/-- `computePricingFingerprint` from route.ts: sha256 of the joined seed,
truncated to 24 hex chars.  `totalCents` and `unitCents` carry the exact
values of `pricing.total` and `pricing.unit` in cents. -/
def computePricingFingerprint (sha : String → String) (m : Method) (p : Plan)
    (b : Billing) (totalCents : ℤ) (coupon : Option String) (months : ℤ)
    (unitCents : ℤ) : String :=
  strTake (sha (String.intercalate "|"
    [methodStr m, planStr p, billingStr b, fixed2StrCents totalCents,
      coupon.getD "", toString months, fixed2StrCents unitCents])) 24

/-- `stableIdempotencyKey` from route.ts: sha256 hex of the trimmed
seed, truncated to 64 chars. -/
def stableIdempotencyKey (sha : String → String) (seed : String) : String :=
  strTake (sha (jsTrim seed)) 64

/-- Environment configuration relevant to the embedded handlers. -/
structure Env where
  minPixAmount : JsNum := JsNum.ofInt 1
  minBoletoAmount : JsNum := JsNum.ofInt 1
  intentTtlSeconds : JsNum := JsNum.ofInt 120
  coupons : List CouponDef := []
  hasAccessToken : Bool := true
  isTestToken : Bool := false

/-- `getMinFinalCentsForMethod` from route.ts. -/
def getMinFinalCentsForMethod (env : Env) (m : Method) : ℤ :=
  let minAmount : JsNum :=
    match m with
    | .pix => env.minPixAmount
    | .boleto => env.minBoletoAmount
    | .card => JsNum.ofInt 1
  max 1 (toCents (JsNum.maxJ ⟨1, 100, by decide⟩ minAmount))

example : getMinFinalCentsForMethod {} .pix = 100 := by decide
example : getMinFinalCentsForMethod {minPixAmount := ⟨1, 100, by decide⟩} .pix = 1 := by decide

/-! ## Boleto address normalization -/

/-- Raw `payer.address` fields of the request body. -/
structure AddressRaw where
  zip_code : String := ""
  street_name : String := ""
  street_number : String := ""
  neighborhood : String := ""
  city : String := ""
  federal_unit : String := ""
deriving DecidableEq

/-- `BR_STATES_TO_UF` from route.ts (keys pre-normalized, ASCII). -/
def BR_STATES_TO_UF : List (String × String) :=
  [("acre", "AC"), ("alagoas", "AL"), ("amapa", "AP"), ("amazonas", "AM"),
   ("bahia", "BA"), ("ceara", "CE"), ("distrito federal", "DF"),
   ("espirito santo", "ES"), ("goias", "GO"), ("maranhao", "MA"),
   ("mato grosso", "MT"), ("mato grosso do sul", "MS"), ("minas gerais", "MG"),
   ("para", "PA"), ("paraiba", "PB"), ("parana", "PR"), ("pernambuco", "PE"),
   ("piaui", "PI"), ("rio de janeiro", "RJ"), ("rio grande do norte", "RN"),
   ("rio grande do sul", "RS"), ("rondonia", "RO"), ("roraima", "RR"),
   ("santa catarina", "SC"), ("sao paulo", "SP"), ("sergipe", "SE"),
   ("tocantins", "TO")]

/-- `normalizeDiacriticsLower` from route.ts, on ASCII input (the NFD
diacritic stripping only affects accented input; every table key is
plain ASCII). -/
def normalizeDiacriticsLower (s : String) : String := jsTrim (toLowerStr s)

/-- Two uppercase ASCII letters test (`/^[A-Z]{2}$/`). -/
def isTwoUpper (s : String) : Bool :=
  s.length = 2 && s.data.all (fun c => 'A' ≤ c && c ≤ 'Z')

/-- `normalizeFederalUnit` from route.ts. -/
def normalizeFederalUnit (v : Option String) : String :=
  let raw := normalizeText v 60
  if raw = "" then ""
  else
    let up := jsTrim (toUpperStr raw)
    if isTwoUpper up && (BR_STATES_TO_UF.map Prod.snd).contains up then up
    else
      match BR_STATES_TO_UF.lookup (normalizeDiacriticsLower raw) with
      | some uf => uf
      | none => ""

/-- A normalized boleto address. -/
structure MpBoletoAddress where
  zip_code : String
  street_name : String
  street_number : String
  neighborhood : String
  city : String
  federal_unit : String
deriving DecidableEq

/-- `normalizeMpBoletoAddress` from route.ts (`none` stands for the
`{ok:false, missing}` result whose field list no claim mentions). -/
def normalizeMpBoletoAddress (raw : AddressRaw) : Option MpBoletoAddress :=
  let zip := strTake (onlyDigits raw.zip_code) 8
  let street_name := normalizeText (some raw.street_name) 90
  let street_number := normalizeText (some raw.street_number) 20
  let neighborhood := normalizeText (some raw.neighborhood) 70
  let city := normalizeText (some raw.city) 70
  let fu := normalizeFederalUnit (some raw.federal_unit)
  if zip.length = 8 && street_name ≠ "" && street_number ≠ "" &&
      neighborhood ≠ "" && city ≠ "" && fu ≠ "" then
    some ⟨zip, street_name, street_number, neighborhood, city, fu⟩
  else none

example : normalizeFederalUnit (some "Sao Paulo") = "SP" := by decide
example : normalizeFederalUnit (some "sp") = "SP" := by decide
example : normalizeFederalUnit (some "XX") = "" := by decide

/-! ## Intent store and gateway model -/

/-- An `intentStore` entry. -/
structure IntentRec where
  payment_id : String
  createdAt : ℤ
  fingerprint : String
  status : Option String := none
deriving DecidableEq

/-- `makeIntentKey` from route.ts. -/
def makeIntentKey (order_id : String) (revision : ℤ) (m : Method) : String :=
  order_id ++ "::" ++ toString revision ++ "::" ++ methodStr m

/-- `getIntent` from route.ts: TTL-guarded lookup (the eager delete of a
stale entry is unobservable to a single request). -/
def getIntent (env : Env) (now : ℤ) (store : String → Option IntentRec)
    (key : String) : Option IntentRec :=
  match store key with
  | none => none
  | some it =>
    let ttlMs := (JsNum.maxJ (JsNum.ofInt 10) env.intentTtlSeconds).mul (JsNum.ofInt 1000)
    if ttlMs.lt (JsNum.ofInt (now - it.createdAt)) then none else some it

/-- The fields of a gateway payment record the embedded code reads. -/
structure MpPayment where
  id : Option String := none
  status : Option String := none
  payment_method_id : Option String := none
  metaOrderId : Option String := none
  metaFingerprint : Option String := none
  external_reference : Option String := none
deriving DecidableEq

/-- Gateway state: payment lookup by (normalized, nonempty) id, search
results per external_reference, and the record answered to a create. -/
structure Gateway where
  payments : String → Option MpPayment
  searchResults : String → List MpPayment := fun _ => []
  createResult : MpPayment := {}

/-- One gateway HTTP call issued by the handler.  A create call records
the exact transaction amount in cents together with the request fields
the claims mention (payment_method_id, external_reference, idempotency
key, the metadata fingerprint and the payer identification). -/
inductive GwCall where
  | getPayment (pid : String)
  | search (ref : String)
  | createPayment (amountCents : ℤ) (methodId : String) (ref : String)
      (idemKey : String) (fp : String) (cpf : String) (email : String)
  | cancelPayment (pid : String) (idemKey : String)
deriving DecidableEq

/-- Whether a trace entry is a payment-create call. -/
def GwCall.isCreate : GwCall → Bool
  | .createPayment _ _ _ _ _ _ _ => true
  | _ => false

/-- Whether a trace entry is a cancel call for `pid`. -/
def GwCall.isCancelFor (pid : String) : GwCall → Bool
  | .cancelPayment p _ => p = pid
  | _ => false

/-! ## POST /api/pagment -/

/-- The parsed JSON body of a create-payment request. -/
structure Body where
  method : Option String := none
  plan : Option String := none
  billing : Option String := none
  planTitle : Option String := none
  planDescription : Option String := none
  coupon : Option String := none
  payerEmail : Option String := none
  payerCpf : Option String := none
  payerName : Option String := none
  payerAddress : Option AddressRaw := none
  order_id : Option String := none
  revision : Option ℤ := none
  replace_payment_id : Option String := none
  cancel_previous : Bool := false
deriving DecidableEq

/-- The pricing block of a successful response, in cents (`base`,
`discount` and `total` are serialized as `cents / 100`). -/
structure Pricing where
  baseCents : ℤ
  discountCents : ℤ
  totalCents : ℤ
  coupon : Option String
  label : Option String
  type : Option CouponType
  unitCents : ℤ
  months : ℤ
deriving DecidableEq

/-- The `cancelInfo` block of a response. -/
structure CancelInfo where
  replace_payment_id : String
  ok : Bool
  status : Option ℤ := none
  skipped : Bool := false
  reason : Option String := none
  oldStatus : Option String := none
deriving DecidableEq

/-- Observable outcome of one POST request: the JSON response fields the
claims mention plus the issued gateway calls and the intent-store write. -/
structure PostResult where
  httpStatus : ℤ
  ok : Bool
  message : Option String := none
  deduped : Bool := false
  id : Option String := none
  status : Option String := none
  pricing : Option Pricing := none
  cancelInfo : Option CancelInfo := none
  external_reference : Option String := none
  order_id : Option String := none
  revision : Option ℤ := none
  fingerprint : Option String := none
  idemKeyUsed : Option String := none
  newIntent : Option (String × IntentRec) := none
  calls : List GwCall := []
deriving DecidableEq

/-- An error response (`bad(...)`). -/
def errResult (status : ℤ) (message : String) : PostResult :=
  { httpStatus := status, ok := false, message := some message }

/-- The request data computed by the validation region of `POST`
(everything before the local-dedupe check). -/
structure ValidatedReq where
  method : Method
  plan : Plan
  billing : Billing
  months : ℤ
  baseCents : ℤ
  finalCents : ℤ
  pricing : Pricing
  fp : String
  payerEmail : String
  payerCpf : String
  payerName : String
  order_id : String
  revision : ℤ
  replace : String
  extRef : String
  idemKey : String
  intentKey : String
  cancel_previous : Bool
deriving DecidableEq

/-- Pre-coupon base total in cents computed by `POST`:
`toCents(Number((unit * months).toFixed(2)))`. -/
def computeBaseCents (p : Plan) (b : Billing) : ℤ :=
  toCents (toFixed2 ((PLAN_PRICES b p).mul (JsNum.ofInt (billingMonths b))))

/-- `payment_method_id` selection in `POST`. -/
def pmId (m : Method) : String := if m = .pix then "pix" else "bolbradesco"

/-- The minimum-floor adjustment of the final amount (route.ts 1634-1638). -/
def floorFinalCents (minFinal evalFinal : ℤ) : ℤ :=
  if evalFinal < minFinal then minFinal else evalFinal

/-- The discount recomputation when the floor fires (route.ts 1637). -/
def floorDiscountCents (baseCents minFinal evalFinal evalDiscount : ℤ) : ℤ :=
  if evalFinal < minFinal then max 0 (baseCents - minFinal) else evalDiscount

/-- A response field only present when the coupon applied. -/
def ifApplied {A : Type} (applied : Bool) (x : Option A) : Option A :=
  if applied then x else none

theorem floorFinalCents_ge (minFinal evalFinal : ℤ) :
    minFinal ≤ floorFinalCents minFinal evalFinal := by
  unfold floorFinalCents
  split <;> omega

/-- The request data the `POST` handler derives for a pix/boleto request
that passes every validation (the let-bindings of route.ts 1584-1828,
assembled in one place). -/
def mkValidated (sha : String → String) (env : Env) (de : Option String)
    (uuid : String) (body : Body) (method : Method) (plan : Plan)
    (billing : Billing) (applied : Bool) (evalDiscount evalFinal : ℤ)
    (evalLabel : Option String) (evalType : Option CouponType) : ValidatedReq :=
  let unit := PLAN_PRICES billing plan
  let months := billingMonths billing
  let payerEmail :=
    jsTrim (jsOr (jsTrim (body.payerEmail.getD "")) (de.getD ""))
  let payerCpf := onlyDigits (body.payerCpf.getD "")
  let payerName := collapseWs (body.payerName.getD "")
  let couponCode := normalizeCouponCode body.coupon
  let baseCents := computeBaseCents plan billing
  let minFinal := getMinFinalCentsForMethod env method
  let finalCents := floorFinalCents minFinal evalFinal
  let discountCents := floorDiscountCents baseCents minFinal evalFinal evalDiscount
  let unitCents := jsRound (unit.mul (JsNum.ofInt 100))
  let pricing : Pricing :=
    { baseCents := baseCents, discountCents := discountCents,
      totalCents := finalCents,
      coupon := ifApplied applied (some couponCode),
      label := ifApplied applied evalLabel,
      type := ifApplied applied evalType,
      unitCents := unitCents, months := months }
  let fp := computePricingFingerprint sha method plan billing finalCents
    (ifApplied applied (some couponCode)) months unitCents
  let order_id := (normalizeOrderId body.order_id).getD uuid
  let revision := normalizeRevision body.revision
  let replace := normalizePaymentId body.replace_payment_id
  let extRef := "order:" ++ order_id ++ ":rev:" ++ toString revision
  let idemKey := stableIdempotencyKey sha
    ("create|" ++ extRef ++ "|" ++ methodStr method ++ "|" ++ fp ++
      "|" ++ payerCpf ++ "|" ++ payerEmail)
  { method := method, plan := plan, billing := billing,
    months := months, baseCents := baseCents,
    finalCents := finalCents, pricing := pricing, fp := fp,
    payerEmail := payerEmail, payerCpf := payerCpf,
    payerName := payerName, order_id := order_id,
    revision := revision, replace := replace, extRef := extRef,
    idemKey := idemKey,
    intentKey := makeIntentKey order_id revision method,
    cancel_previous := body.cancel_previous }

/-- The plan/amount guards of `POST` (route.ts 1584-1596): reject a
non-positive unit price or total. -/
def planGuardErr (plan : Plan) (billing : Billing) : Option PostResult :=
  let unit := PLAN_PRICES billing plan
  if unit.num ≤ 0 then some (errResult 400 "Plano/recorrencia invalidos.")
  else
    let amount := toFixed2 (unit.mul (JsNum.ofInt (billingMonths billing)))
    if amount.num ≤ 0 then some (errResult 400 "Plano/recorrencia invalidos.")
    else none

/-- The access-token and per-method payer validations of `POST`
(route.ts 1684-1811, including the card rejection of 2234 and the boleto
address requirement), in source order. -/
def payerGuardErr (env : Env) (discordEmail : Option String) (body : Body)
    (method : Method) : Option PostResult :=
  let payerEmail :=
    jsTrim (jsOr (jsTrim (body.payerEmail.getD "")) (discordEmail.getD ""))
  let payerCpf := onlyDigits (body.payerCpf.getD "")
  let payerName := collapseWs (body.payerName.getD "")
  if env.hasAccessToken = false then
    some (errResult 500 "MP_ACCESS_TOKEN nao configurado no .env.local")
  else if method = .card then
    some (errResult 422
      "Cartao (checkout transparente) exige tokenizacao no client. Use Pix/Boleto por enquanto.")
  else if payerEmail = "" then
    some (errResult 400 "Email do pagador e obrigatorio.")
  else if isValidEmailBasic payerEmail = false then
    some (errResult 400 "Email do pagador invalido.")
  else if payerCpf.length ≠ 11 then
    some (errResult 400 "CPF do pagador invalido.")
  else if isValidCpfDigits payerCpf = false then
    some (errResult 400 "CPF do pagador invalido.")
  else if payerName = "" ∨ payerName.length < 3 then
    some (errResult 400 "Nome do pagador e obrigatorio.")
  else if method = .boleto ∧ (splitName payerName).2 = "" then
    some (errResult 400 "Para boleto, informe nome e sobrenome.")
  else if env.isTestToken then
    some (errResult 422
      "MP_ACCESS_TOKEN de TESTE: use credencial de PRODUCAO.")
  else if method = .boleto ∧ normalizeMpBoletoAddress (body.payerAddress.getD {}) = none then
    some (errResult 400
      "Para gerar boleto registrado, informe endereco completo (CEP, Rua, Numero, Bairro, Cidade e UF).")
  else none

/-- The validation region of `POST /api/pagment` (route.ts 1571-1826):
normalization, pricing, coupon evaluation, per-method minimum floor,
fingerprint and idempotency-key derivation, and the per-method payer
validations, in source order.  Succeeds exactly when the source reaches
the local-dedupe check. -/
def postValidate (sha : String → String) (env : Env) (now : ℤ)
    (discordEmail : Option String) (uuid : String) (body : Body) :
    Except PostResult ValidatedReq :=
  match normalizeMethod body.method, normalizePlan body.plan,
      normalizeBilling body.billing with
  | some method, some plan, some billing =>
    match planGuardErr plan billing with
    | some e => .error e
    | none =>
      match evaluateCoupon now env.coupons (normalizeCouponCode body.coupon)
          plan billing (computeBaseCents plan billing) with
      | .err m => .error (errResult 422 m)
      | .ok applied _ evalDiscount evalFinal evalLabel evalType =>
        match payerGuardErr env discordEmail body method with
        | some e => .error e
        | none =>
          .ok (mkValidated sha env discordEmail uuid body method plan billing
            applied evalDiscount evalFinal evalLabel evalType)
  | _, _, _ =>
    .error (errResult 400 "Payload invalido: method/plan/billing invalidos ou ausentes.")

/-- The local-dedupe region of `POST` (route.ts 1828-1896): on a fresh
fingerprint-matching intent, re-fetch the stored payment and return it
when its status is still non-final. -/
def dedupLocal (env : Env) (gw : Gateway) (now : ℤ)
    (store : String → Option IntentRec) (v : ValidatedReq) :
    List GwCall × Option PostResult :=
  match getIntent env now store v.intentKey with
  | none => ([], none)
  | some it =>
    if it.fingerprint ≠ v.fp then ([], none)
    else
      let pid := normalizePaymentId (some it.payment_id)
      if pid = "" then ([], none)
      else
        match gw.payments pid with
        | none => ([.getPayment pid], none)
        | some p =>
          if isFinalStatus ((p.status).getD "") then ([.getPayment pid], none)
          else
            ([.getPayment pid], some
              { httpStatus := 200, ok := true, deduped := true,
                id := some ((p.id).getD it.payment_id), status := p.status,
                pricing := some v.pricing,
                cancelInfo := some
                  { replace_payment_id := it.payment_id, ok := true,
                    skipped := true,
                    reason := some
                      "dedupe local: retornou pagamento existente (ainda nao final)." },
                external_reference := some ((p.external_reference).getD v.extRef),
                order_id := some v.order_id, revision := some v.revision })

/-- Candidate filter of the gateway-search dedupe (route.ts 1903-1917). -/
def searchKeep (fp : String) (m : Method) (p : MpPayment) : Bool :=
  let st := toLowerStr ((p.status).getD "")
  if st = "cancelled" then false
  else
    let pfp := (p.metaFingerprint).getD ""
    if pfp ≠ "" && pfp ≠ fp then false
    else
      let pmid := (p.payment_method_id).getD ""
      if m = .pix && pmid ≠ "" && pmid ≠ "pix" then false
      else if m = .boleto && pmid ≠ "" && pmid ≠ "bolbradesco" then false
      else true

/-- The gateway-search dedupe region of `POST` (route.ts 1898-1986). -/
def dedupSearch (gw : Gateway) (now : ℤ) (v : ValidatedReq) :
    List GwCall × Option PostResult :=
  let candidate := (gw.searchResults v.extRef).find? (searchKeep v.fp v.method)
  match candidate with
  | none => ([.search v.extRef], none)
  | some p =>
    match p.id with
    | none => ([.search v.extRef], none)
    | some pid0 =>
      if pid0 = "" then ([.search v.extRef], none)
      else
        let st := (p.status).getD ""
        if isFinalStatus st then ([.search v.extRef], none)
        else
          ([.search v.extRef], some
            { httpStatus := 200, ok := true, deduped := true,
              id := some pid0, status := p.status, pricing := some v.pricing,
              cancelInfo := some
                { replace_payment_id := pid0, ok := true, skipped := true,
                  reason := some
                    "dedupe MP: retornou pagamento existente (ainda nao final) por external_reference." },
              external_reference := some ((p.external_reference).getD v.extRef),
              order_id := some v.order_id, revision := some v.revision,
              newIntent := some (v.intentKey,
                { payment_id := pid0, createdAt := now, fingerprint := v.fp,
                  status := some st }) })

/-- Partial result of `tryCancelPayment` (merged into `cancelInfo` by the
caller). -/
structure TcRes where
  ok : Bool
  status : Option ℤ := none
  skipped : Bool := false
  reason : Option String := none
deriving DecidableEq

/-- `tryCancelPayment` from route.ts (884-937): re-check the remote
status, skip when it is truthy and not cancellable, otherwise `PUT
status=cancelled` under a stable cancel idempotency key. -/
def tryCancelPayment (sha : String → String) (gw : Gateway) (traceId : String)
    (paymentId : String) : List GwCall × TcRes :=
  let pid := normalizePaymentId (some paymentId)
  if pid = "" then ([], { ok := false, status := some 400, reason := some "paymentId invalido" })
  else
    let idKey := stableIdempotencyKey sha ("cancel|" ++ pid ++ "|" ++ traceId)
    match gw.payments pid with
    | some p =>
      let cur := (p.status).getD ""
      if cur ≠ "" ∧ isCancellableStatus cur = false then
        ([.getPayment pid],
          { ok := true, status := some 200, skipped := true,
            reason := some ("nao cancelado: status=" ++ cur) })
      else
        ([.getPayment pid, .cancelPayment pid idKey], { ok := true, status := some 200 })
    | none =>
      ([.getPayment pid, .cancelPayment pid idKey], { ok := true, status := some 200 })

/-- Truthy-guarded mismatch test `oldOrderId && String(oldOrderId) !==
String(order_id)`. -/
def metaOrderMismatch (o : Option String) (order_id : String) : Bool :=
  match o with
  | some s => s ≠ "" && s ≠ order_id
  | none => false

/-- Truthy-guarded test `oldStatus && !isCancellableStatus(oldStatus)`. -/
def truthyNotCancellable (o : Option String) : Bool :=
  match o with
  | some s => s ≠ "" && !isCancellableStatus s
  | none => false

/-- The cancellation-guard region of `POST` (route.ts 1988-2049). -/
def cancelGuard (sha : String → String) (gw : Gateway) (traceId : String)
    (v : ValidatedReq) : List GwCall × Option CancelInfo :=
  if v.cancel_previous ∧ v.replace ≠ "" then
    match gw.payments v.replace with
    | some p =>
      let oldStatus := p.status
      if metaOrderMismatch p.metaOrderId v.order_id then
        ([.getPayment v.replace], some
          { replace_payment_id := v.replace, ok := false, status := none,
            skipped := true,
            reason := some "replace_payment_id nao pertence ao mesmo order_id (metadata).",
            oldStatus := oldStatus })
      else if toLowerStr (oldStatus.getD "") = "approved" then
        ([.getPayment v.replace], some
          { replace_payment_id := v.replace, ok := false, status := none,
            skipped := true,
            reason := some "payment anterior ja aprovado; nao cancelado.",
            oldStatus := oldStatus })
      else if truthyNotCancellable oldStatus then
        ([.getPayment v.replace], some
          { replace_payment_id := v.replace, ok := true, skipped := true,
            reason := some ("nao cancelado: status nao cancelavel (" ++ oldStatus.getD "" ++ ")."),
            oldStatus := oldStatus })
      else
        let t := tryCancelPayment sha gw traceId v.replace
        (.getPayment v.replace :: t.1, some
          { replace_payment_id := v.replace, ok := t.2.ok, status := t.2.status,
            skipped := t.2.skipped, reason := t.2.reason, oldStatus := oldStatus })
    | none =>
      let t := tryCancelPayment sha gw traceId v.replace
      (.getPayment v.replace :: t.1, some
        { replace_payment_id := v.replace, ok := t.2.ok, status := t.2.status,
          skipped := t.2.skipped, reason := t.2.reason, oldStatus := none })
  else if v.replace ≠ "" then
    ([], some
      { replace_payment_id := v.replace, ok := true, skipped := true,
        reason := some "nao cancelado: troca/remover cupom nao cancela pagamentos" })
  else ([], none)

/-- `POST /api/pagment` for a parsed body: validation, local dedupe,
gateway-search dedupe, cancellation guard, then gateway create. -/
def postCreate (sha : String → String) (env : Env) (gw : Gateway)
    (store : String → Option IntentRec) (now : ℤ) (traceId uuid : String)
    (discordEmail : Option String) (body : Body) : PostResult :=
  match postValidate sha env now discordEmail uuid body with
  | .error r => r
  | .ok v =>
    let l := dedupLocal env gw now store v
    match l.2 with
    | some r => { r with calls := l.1 }
    | none =>
      let srch := dedupSearch gw now v
      match srch.2 with
      | some r => { r with calls := l.1 ++ srch.1 }
      | none =>
        let cg := cancelGuard sha gw traceId v
        let mpRes := gw.createResult
        let createdId := (mpRes.id).getD ""
        { httpStatus := 200, ok := true, deduped := false, id := mpRes.id,
          status := mpRes.status, pricing := some v.pricing,
          cancelInfo := cg.2, external_reference := some v.extRef,
          order_id := some v.order_id, revision := some v.revision,
          fingerprint := some v.fp, idemKeyUsed := some v.idemKey,
          newIntent :=
            if createdId = "" then none
            else some (v.intentKey,
              { payment_id := createdId, createdAt := now, fingerprint := v.fp,
                status := mpRes.status }),
          calls := l.1 ++ srch.1 ++ cg.1 ++
            [.createPayment v.finalCents (pmId v.method) v.extRef v.idemKey
              v.fp v.payerCpf v.payerEmail] }

/-! ## GET /api/pagment (receipt mode) -/

/-- The decoded `{pid, exp}` payload of a receipt token (`none` fields
stand for missing or non-numeric JSON values). -/
structure ReceiptPayload where
  pid : Option String := none
  exp : Option ℤ := none
deriving DecidableEq

/-- `signHmac` from route.ts: empty secret yields the empty signature. -/
def signHmac (hmac : String → String → String) (secret : String)
    (data : String) : String :=
  if secret = "" then "" else hmac secret data

/-- `verifyReceiptToken` from route.ts (1066-1096): split the token at
the first dot, recompute and compare the HMAC (`timingSafeEqual` of
equal-length buffers is byte equality), decode the payload, check the
payment id and the expiry. -/
def verifyReceiptToken (hmac : String → String → String) (secret : String)
    (decodePayload : String → Option ReceiptPayload) (now : ℤ)
    (token : String) (expectedPaymentId : String) : Bool × String :=
  let t := jsTrim token
  if !(t.data.contains '.') then (false, "token invalido")
  else
    let ps := splitOnChar '.' t.data
    let payloadB64 := String.mk (ps.headD [])
    let sig := String.mk ((ps.drop 1).headD [])
    if payloadB64 = "" ∨ sig = "" then (false, "token invalido")
    else
      let sig2 := signHmac hmac secret payloadB64
      if sig ≠ sig2 then (false, "assinatura invalida")
      else
        match decodePayload payloadB64 with
        | none => (false, "token invalido")
        | some payload =>
          let pid := jsTrim ((payload.pid).getD "")
          if pid = "" ∨ pid ≠ jsTrim expectedPaymentId then
            (false, "token nao pertence ao payment")
          else
            match payload.exp with
            | none => (false, "token expirado")
            | some e => if now > e then (false, "token expirado") else (true, "")

/-- Observable outcome of a `GET /api/pagment` request. -/
inductive GetOutcome where
  | badRequest (message : String)
  | serverError (message : String)
  | forbidden (message : String)
  | servedReceipt (pid : String)
  | polling (pid : String) (status : Option String)
deriving DecidableEq

/-- `GET /api/pagment` after the rate limiter (route.ts 1382-1513):
normalize the id, fetch the payment (a gateway miss raises and yields the
500 catch), then in receipt mode under production require and verify the
receipt token before serving any receipt bytes or redirect. -/
def getHandler (hmac : String → String → String) (secret : String)
    (decodePayload : String → Option ReceiptPayload) (production : Bool)
    (now : ℤ) (gw : Gateway) (hasAccessToken : Bool)
    (idParam receiptParam : String) (tokenParam : Option String) : GetOutcome :=
  if !hasAccessToken then
    .serverError "MP_ACCESS_TOKEN nao configurado no .env.local"
  else
    let id := normalizePaymentId (some (jsTrim idParam))
    if id = "" then .badRequest "Parametro id e obrigatorio."
    else
      let isReceipt := jsTrim receiptParam = "1"
      match gw.payments id with
      | none => .serverError "Erro ao consultar pagamento."
      | some p =>
        if isReceipt then
          if production then
            let token := jsTrim ((tokenParam).getD "")
            if token = "" then .forbidden "Token do comprovante e obrigatorio."
            else
              let vr := verifyReceiptToken hmac secret decodePayload now token id
              if vr.1 = false then .forbidden ("Token invalido: " ++ vr.2)
              else .servedReceipt id
          else .servedReceipt id
        else .polling id p.status

/-! ## GET/POST /api/pagment/cupom (validateCouponOnly) -/

/-- A `gift_coupons` row (database nulls are `none`). -/
structure GiftCoupon where
  active : Bool
  discord_id : Option String := none
  expires_at_epoch : Option ℤ := none
  starts_at_epoch : Option ℤ := none
  max_uses : Option ℤ := none
  uses_count : Option ℤ := none
  discount_kind : String := ""
  discount_percent : Option ℤ := none
  discount_amount_cents : Option ℤ := none
  target_total_cents : Option ℤ := none
deriving DecidableEq

/-- A `coupons` row (database nulls are `none`). -/
structure GeneralCoupon where
  active : Bool
  exclusive_discord_id : Option String := none
  expires_at_epoch : Option ℤ := none
  starts_at_epoch : Option ℤ := none
  max_uses : Option ℤ := none
  uses_count : Option ℤ := none
  discount_kind : String := ""
  discount_percent : Option ℤ := none
  discount_amount_cents : Option ℤ := none
  target_total_cents : Option ℤ := none
deriving DecidableEq

/-- `normalizeCode` from cupom/route.ts. -/
def normalizeCode (v : String) : String := toUpperStr (jsTrim v)

/-- Result of `validateCouponOnly` (`invalid` carries the message of a
`{ok:true, valid:false}` response; `valid...` carries the discount
payload of a success). -/
inductive CouponValidation where
  | invalid (message : String)
  | validGift (code : String) (kind : String) (percent : Option ℤ)
      (amountCents : Option ℤ) (targetCents : Option ℤ)
  | validGeneral (code : String) (kind : String) (percent : Option ℤ)
      (amountCents : Option ℤ) (targetCents : Option ℤ)
deriving DecidableEq

/-- One database table consultation. -/
inductive DbLookup where
  | gift (code : String)
  | general (code : String)
deriving DecidableEq

/-- `validateCouponOnly` from cupom/route.ts (65-220): gift table first;
a row found there fully decides the outcome; only on a gift miss is the
general table consulted.  The returned list records the tables
consulted, in order. -/
def validateCouponOnly (giftTable : String → Option GiftCoupon)
    (generalTable : String → Option GeneralCoupon) (now : ℤ) (code : String)
    (discordId : Option String) : CouponValidation × List DbLookup :=
  let upper := normalizeCode code
  if upper = "" then (.invalid "Codigo ausente.", [])
  else
    match giftTable upper with
    | some gift =>
      (if gift.active = false then .invalid "Cupom inativo."
       else
         match discordId with
         | none => .invalid "Sessao invalida. Faca login novamente."
         | some did =>
           if (gift.discord_id).getD "" ≠ did then
             .invalid "Este cupom e invalido ou nao disponivel."
           else if (gift.starts_at_epoch).getD 0 ≠ 0 ∧ now < (gift.starts_at_epoch).getD 0 then
             .invalid "Cupom ainda nao disponivel."
           else if (gift.expires_at_epoch).getD 0 ≠ 0 ∧ now > (gift.expires_at_epoch).getD 0 then
             .invalid "Cupom expirado."
           else if (gift.max_uses).getD 0 ≠ 0 ∧ (gift.uses_count).getD 0 ≥ (gift.max_uses).getD 0 then
             .invalid "Cupom sem usos disponiveis."
           else
             .validGift upper gift.discount_kind gift.discount_percent
               gift.discount_amount_cents gift.target_total_cents,
        [.gift upper])
    | none =>
      (match generalTable upper with
       | none => .invalid "Cupom invalido ou indisponivel."
       | some c =>
         if c.active = false then .invalid "Cupom inativo."
         else
           let exclusive := (c.exclusive_discord_id).getD ""
           if exclusive ≠ "" ∧ discordId = none then
             .invalid "Sessao invalida. Faca login novamente."
           else if exclusive ≠ "" ∧ some exclusive ≠ discordId then
             .invalid "Este cupom e invalido ou nao disponivel."
           else if (c.starts_at_epoch).getD 0 ≠ 0 ∧ now < (c.starts_at_epoch).getD 0 then
             .invalid "Cupom ainda nao disponivel."
           else if (c.expires_at_epoch).getD 0 ≠ 0 ∧ now > (c.expires_at_epoch).getD 0 then
             .invalid "Cupom expirado."
           else if (c.max_uses).getD 0 ≠ 0 ∧ (c.uses_count).getD 0 ≥ (c.max_uses).getD 0 then
             .invalid "Cupom sem usos disponiveis."
           else
             .validGeneral upper c.discount_kind c.discount_percent
               c.discount_amount_cents c.target_total_cents,
        [.gift upper, .general upper])

/-! ## Supporting lemmas -/

theorem toQ_ofInt (n : ℤ) : (JsNum.ofInt n).toQ = (n : ℚ) := by
  unfold JsNum.toQ JsNum.ofInt
  simp

theorem toQ_nonneg (x : JsNum) (h : 0 ≤ x.num) : 0 ≤ x.toQ := by
  unfold JsNum.toQ
  positivity

theorem jsRound_nonneg (x : JsNum) (h : 0 ≤ x.num) : 0 ≤ jsRound x := by
  rw [jsRound_eq_floor]
  refine Int.le_floor.mpr ?_
  push_cast
  have := toQ_nonneg x h
  linarith

theorem jsRound_ofInt (n : ℤ) : jsRound (JsNum.ofInt n) = n := by
  rw [jsRound_eq_floor, toQ_ofInt, Int.floor_int_add]
  norm_num

theorem toCents_nonneg (v : JsNum) : 0 ≤ toCents v := le_max_left 0 _

theorem pctClamp_num_nonneg (v : JsNum) : 0 ≤ (pctClamp v).num := by
  unfold pctClamp JsNum.maxJ JsNum.minJ
  by_cases h1 : (JsNum.ofInt 0).lt v
  · simp only [if_pos h1]
    unfold JsNum.lt JsNum.ofInt at h1
    simp only at h1
    split
    · omega
    · simp [JsNum.ofInt]
  · simp only [if_neg h1]
    split
    · simp [JsNum.ofInt]
    · simp [JsNum.ofInt]

theorem couponFinal0_le (t : CouponType) (value : JsNum) (baseCents : ℤ)
    (hbase : 0 ≤ baseCents) : couponFinal0 t value baseCents ≤ baseCents := by
  cases t with
  | percent =>
    simp only [couponFinal0]
    have h0 : (0 : ℤ) ≤ jsRound
        ⟨baseCents * (pctClamp value).num, (pctClamp value).den * 100,
          Nat.mul_pos (pctClamp value).dpos (by decide)⟩ :=
      jsRound_nonneg _ (mul_nonneg hbase (pctClamp_num_nonneg value))
    omega
  | fixed =>
    simp only [couponFinal0]
    have := toCents_nonneg value
    omega
  | target_total =>
    simp only [couponFinal0]
    exact min_le_left _ _

/-- Inversion of a successful, applied `evaluateCoupon` run. -/
theorem evaluateCoupon_ok_applied_inv {now : ℤ} {coupons : List CouponDef}
    {code : String} {plan : Plan} {billing : Billing} {baseCents : ℤ}
    {co : Option String} {dc fc : ℤ} {lb : Option String} {tp : Option CouponType}
    (hc : evaluateCoupon now coupons code plan billing baseCents =
      .ok true co dc fc lb tp) :
    ∃ d, coupons.find? (fun c => c.code = code) = some d ∧
      fc = max (couponFinal0 d.type d.value baseCents) 1 ∧
      dc = max 0 (baseCents - fc) ∧ tp = some d.type := by
  unfold evaluateCoupon at hc
  split at hc
  · simp at hc
  · split at hc
    · simp at hc
    · rename_i d hfind
      split at hc
      · simp at hc
      · split at hc
        · simp at hc
        · split at hc
          · simp at hc
          · split at hc
            · simp at hc
            · split at hc
              · simp at hc
              · split at hc
                · simp at hc
                · simp only [CouponEval.ok.injEq] at hc
                  obtain ⟨-, -, hdc, hfc, -, htp⟩ := hc
                  exact ⟨d, hfind, hfc.symm, by omega, htp.symm⟩

/-! ## Claim C5: target_total coupons -/

/-- A `target_total` coupon whose BRL value rounds to zero cents
(`COUPONS_JSON` accepts any positive finite value, e.g. `0.001`). -/
def cexTargetCoupon : CouponDef :=
  { code := "SUB", type := .target_total, value := ⟨1, 1000, by decide⟩ }

/-- Claim C5, counterexample: with a `target_total` coupon of value
0.001 BRL (`target_cents = 0`) on a base of 1990 cents, the evaluator
applies the coupon with `final_cents = 1`, while the claimed
`min(base_cents, target_cents)` is `0`: the one-cent clamp of the
evaluator breaks the claimed equation. -/
theorem target_total_min_equation_cex :
    evaluateCoupon 0 [cexTargetCoupon] "SUB" Plan.pro Billing.monthly 1990 =
      CouponEval.ok true (some "SUB") 1989 1 (some "Cupom (SUB)")
        (some CouponType.target_total) ∧
    min 1990 (toCents cexTargetCoupon.value) = 0 ∧ (1 : ℤ) ≠ 0 := by
  refine ⟨by decide, by decide, by decide⟩

/-- Claim C5, amended: for an applied `target_total` coupon the final
amount is `max(1, min(base_cents, target_cents))`; it equals
`min(base_cents, target_cents)` — and in particular never exceeds the
base — whenever both the base and the target are at least one cent. -/
theorem target_total_final_is_clamped_min {now : ℤ} {coupons : List CouponDef}
    {code : String} {plan : Plan} {billing : Billing} {baseCents : ℤ}
    {co : Option String} {dc fc : ℤ} {lb : Option String} {tp : Option CouponType}
    {d : CouponDef}
    (hc : evaluateCoupon now coupons code plan billing baseCents =
      .ok true co dc fc lb tp)
    (hfind : coupons.find? (fun c => c.code = code) = some d)
    (htype : d.type = CouponType.target_total) :
    fc = max (min baseCents (toCents d.value)) 1 ∧
    (1 ≤ baseCents → 1 ≤ toCents d.value →
      fc = min baseCents (toCents d.value) ∧ fc ≤ baseCents) := by
  obtain ⟨d2, hfind2, hfc, hdc, htp2⟩ := evaluateCoupon_ok_applied_inv hc
  rw [hfind] at hfind2
  obtain rfl : d2 = d := by injection hfind2 with h; exact h.symm
  rw [htype] at hfc
  simp only [couponFinal0] at hfc
  constructor
  · exact hfc
  · intro hb ht
    omega

/-- Witness for `target_total_final_is_clamped_min`: a one-cent
`target_total` coupon on the pro/monthly base. -/
theorem target_total_final_is_clamped_min_witness :
    (1 : ℤ) = max (min 1990 (toCents (⟨1, 100, by decide⟩ : JsNum))) 1 ∧
    (1 ≤ (1990 : ℤ) → 1 ≤ toCents (⟨1, 100, by decide⟩ : JsNum) →
      (1 : ℤ) = min 1990 (toCents (⟨1, 100, by decide⟩ : JsNum)) ∧ (1 : ℤ) ≤ 1990) := by
  exact @target_total_final_is_clamped_min 0
    [{ code := "GIFT", type := .target_total, value := ⟨1, 100, by decide⟩ }]
    "GIFT" .pro .monthly 1990 (some "GIFT") 1989 1 (some ("Cupom (GIFT)"))
    (some CouponType.target_total)
    { code := "GIFT", type := .target_total, value := ⟨1, 100, by decide⟩ }
    (by decide) (by decide) rfl

/-! ## Claim C6: coupon discount bounds -/

/-- Claim C6: an applied coupon of any kind on a positive base reports
`0 ≤ discount_cents ≤ base_cents` with
`final_cents = base_cents - discount_cents ≥ 1`. -/
theorem coupon_discount_bounds {now : ℤ} {coupons : List CouponDef}
    {code : String} {plan : Plan} {billing : Billing} {baseCents : ℤ}
    {co : Option String} {dc fc : ℤ} {lb : Option String} {tp : Option CouponType}
    (hbase : 1 ≤ baseCents)
    (hc : evaluateCoupon now coupons code plan billing baseCents =
      .ok true co dc fc lb tp) :
    0 ≤ dc ∧ dc ≤ baseCents ∧ fc = baseCents - dc ∧ 1 ≤ fc := by
  obtain ⟨d, -, hfc, hdc, -⟩ := evaluateCoupon_ok_applied_inv hc
  have hle : couponFinal0 d.type d.value baseCents ≤ baseCents :=
    couponFinal0_le d.type d.value baseCents (by omega)
  omega

/-- Witness for `coupon_discount_bounds`: the 50% coupon on the
pro/monthly base (1990 → discount 995, final 995). -/
theorem coupon_discount_bounds_witness :
    (0 : ℤ) ≤ 995 ∧ (995 : ℤ) ≤ 1990 ∧ (995 : ℤ) = 1990 - 995 ∧ (1 : ℤ) ≤ 995 := by
  exact @coupon_discount_bounds 0
    [{ code := "HALF", type := .percent, value := JsNum.ofInt 50 }]
    "HALF" .pro .monthly 1990 (some "HALF") 995 995 (some ("Cupom (HALF)"))
    (some CouponType.percent) (by decide) (by decide)

/-! ## Claim C7: pre-coupon base total -/

/-- Claim C7: for every (plan, billing) pair the pre-coupon base total
computed by `POST` (`toCents(Number((unit * months).toFixed(2)))`, via
`computeBaseCents`) equals `Math.round(unit_price_cents * months)`, and
pro/monthly yields 1990 cents. -/
theorem base_total_equals_unit_times_months :
    (∀ p b, computeBaseCents p b =
      jsRound (JsNum.ofInt (toCents (PLAN_PRICES b p) * billingMonths b))) ∧
    computeBaseCents Plan.pro Billing.monthly = 1990 := by
  constructor
  · intro p b
    cases p <;> cases b <;> decide
  · decide

/-! ## Claim C9: gift coupons decide first -/

/-- Claim C9: for a nonempty normalized code present in the gift table,
`validateCouponOnly` consults only the gift table, returns the gift
verdict (in particular the rejection for a non-matching user id), and
its outcome is independent of the general coupon table. -/
theorem gift_coupon_decides_first {giftTable : String → Option GiftCoupon}
    {generalTable : String → Option GeneralCoupon} {now : ℤ} {code : String}
    {did : Option String} {g : GiftCoupon}
    (hne : normalizeCode code ≠ "")
    (hg : giftTable (normalizeCode code) = some g) :
    (validateCouponOnly giftTable generalTable now code did).2 =
      [DbLookup.gift (normalizeCode code)] ∧
    (∀ generalTable2,
      validateCouponOnly giftTable generalTable2 now code did =
        validateCouponOnly giftTable generalTable now code did) ∧
    (g.active = true → ∀ did0, did = some did0 → (g.discord_id).getD "" ≠ did0 →
      (validateCouponOnly giftTable generalTable now code did).1 =
        .invalid "Este cupom e invalido ou nao disponivel.") := by
  refine ⟨?_, ?_, ?_⟩
  · simp only [validateCouponOnly, if_neg hne, hg]
  · intro generalTable2
    simp only [validateCouponOnly, if_neg hne, hg]
  · intro hact did0 hdid hne2
    subst hdid
    simp only [validateCouponOnly, if_neg hne, hg, hact, Bool.true_eq_false,
      if_false, if_pos hne2]

/-- Witness for `gift_coupon_decides_first`: a single-entry gift table
owned by another user. -/
theorem gift_coupon_decides_first_witness :
    (validateCouponOnly
        (fun c => if c = "GIFT1" then
          some { active := true, discord_id := some "42" } else none)
        (fun _ => none) 0 "gift1" (some "43")).2 = [DbLookup.gift "GIFT1"] ∧
    (∀ generalTable2,
      validateCouponOnly
        (fun c => if c = "GIFT1" then
          some { active := true, discord_id := some "42" } else none)
        generalTable2 0 "gift1" (some "43") =
      validateCouponOnly
        (fun c => if c = "GIFT1" then
          some { active := true, discord_id := some "42" } else none)
        (fun _ => none) 0 "gift1" (some "43")) ∧
    ((true : Bool) = true → ∀ did0, (some "43" : Option String) = some did0 →
      ((some "42" : Option String)).getD "" ≠ did0 →
      (validateCouponOnly
        (fun c => if c = "GIFT1" then
          some { active := true, discord_id := some "42" } else none)
        (fun _ => none) 0 "gift1" (some "43")).1 =
        .invalid "Este cupom e invalido ou nao disponivel.") := by
  exact @gift_coupon_decides_first
    (fun c => if c = "GIFT1" then
      some { active := true, discord_id := some "42" } else none)
    (fun _ => none) 0 "gift1" (some "43")
    { active := true, discord_id := some "42" }
    (by decide) (by decide)

/-! ## Claim C10: receipt token verification -/

/-- The verification conditions the spec states for a receipt token:
well-formed `payload.signature` shape, HMAC match under the receipt
secret, embedded pid equal to the requested payment id, and not yet
expired (the source treats `Date.now() > exp` as expired, so the instant
`now = exp` still verifies). -/
def receiptTokenSpec (hmac : String → String → String) (secret : String)
    (decodePayload : String → Option ReceiptPayload) (now : ℤ)
    (token expectedPaymentId : String) : Prop :=
  let t := jsTrim token
  let ps := splitOnChar '.' t.data
  let pb := String.mk (ps.headD [])
  let sg := String.mk ((ps.drop 1).headD [])
  t.data.contains '.' = true ∧ pb ≠ "" ∧ sg ≠ "" ∧
  sg = signHmac hmac secret pb ∧
  ∃ pl, decodePayload pb = some pl ∧
    jsTrim ((pl.pid).getD "") ≠ "" ∧
    jsTrim ((pl.pid).getD "") = jsTrim expectedPaymentId ∧
    ∃ e, pl.exp = some e ∧ now ≤ e

/-- `verifyReceiptToken` succeeds exactly on the spec conditions. -/
theorem verifyReceiptToken_iff (hmac : String → String → String)
    (secret : String) (decodePayload : String → Option ReceiptPayload)
    (now : ℤ) (token expectedPaymentId : String) :
    (verifyReceiptToken hmac secret decodePayload now token expectedPaymentId).1 = true ↔
      receiptTokenSpec hmac secret decodePayload now token expectedPaymentId := by
  unfold verifyReceiptToken receiptTokenSpec
  dsimp only
  split
  · rename_i hcont
    constructor
    · intro h
      simp at h
    · intro h
      obtain ⟨h1, -⟩ := h
      rw [h1] at hcont
      simp at hcont
  · rename_i hcont
    split
    · rename_i hempty
      constructor
      · intro h
        simp at h
      · intro h
        obtain ⟨-, h2, h3, -⟩ := h
        rcases hempty with he | he
        · exact absurd he h2
        · exact absurd he h3
    · rename_i hempty
      push_neg at hempty
      split
      · rename_i hsig
        constructor
        · intro h
          simp at h
        · intro h
          obtain ⟨-, -, -, h4, -⟩ := h
          rw [signHmac] at h4
          rw [signHmac] at hsig
          exact absurd h4 hsig
      · rename_i hsig
        push_neg at hsig
        split
        · rename_i hdec
          constructor
          · intro h
            simp at h
          · intro h
            obtain ⟨-, -, -, -, pl, hpl, -⟩ := h
            rw [hpl] at hdec
            simp at hdec
        · rename_i payload hdec
          split
          · rename_i hpid
            constructor
            · intro h
              simp at h
            · intro h
              obtain ⟨-, -, -, -, pl, hpl, hp1, hp2, -⟩ := h
              rw [hdec] at hpl
              obtain rfl : payload = pl := by injection hpl
              rcases hpid with hp | hp
              · exact absurd hp hp1
              · exact absurd hp2 hp
          · rename_i hpid
            push_neg at hpid
            split
            · rename_i hexp
              constructor
              · intro h
                simp at h
              · intro h
                obtain ⟨-, -, -, -, pl, hpl, -, -, e, hee, -⟩ := h
                rw [hdec] at hpl
                obtain rfl : payload = pl := by injection hpl
                rw [hexp] at hee
                simp at hee
            · rename_i e hexp
              split
              · rename_i hlate
                constructor
                · intro h
                  simp at h
                · intro h
                  obtain ⟨-, -, -, -, pl, hpl, -, -, e2, hee, hle⟩ := h
                  rw [hdec] at hpl
                  obtain rfl : payload = pl := by injection hpl
                  rw [hexp] at hee
                  obtain rfl : e = e2 := by injection hee
                  omega
              · rename_i hlate
                constructor
                · intro _
                  refine ⟨by simpa using hcont, hempty.1, hempty.2, by simpa [signHmac] using hsig, payload, hdec, hpid.1, hpid.2, e, hexp, by omega⟩
                · intro _
                  rfl

/-- Claim C10: in production, receipt mode serves a receipt for an
existing payment only when the request token verifies (HMAC match under
the receipt secret, embedded pid equal to the payment id, not yet
expired); a missing token is refused with a 403 message, and every
outcome of the receipt branch is either the served receipt or a 403
refusal. -/
theorem receipt_mode_requires_valid_token
    (hmac : String → String → String) (secret : String)
    (decodePayload : String → Option ReceiptPayload) (now : ℤ) (gw : Gateway)
    (idParam receiptParam : String) (tokenParam : Option String)
    (pid : String) (p : MpPayment)
    (hid : normalizePaymentId (some (jsTrim idParam)) = pid)
    (hpid : pid ≠ "")
    (hgw : gw.payments pid = some p)
    (hrc : jsTrim receiptParam = "1") :
    (jsTrim ((tokenParam).getD "") = "" →
      getHandler hmac secret decodePayload true now gw true idParam receiptParam tokenParam =
        .forbidden "Token do comprovante e obrigatorio.") ∧
    (getHandler hmac secret decodePayload true now gw true idParam receiptParam tokenParam =
        .servedReceipt pid ↔
      jsTrim ((tokenParam).getD "") ≠ "" ∧
        receiptTokenSpec hmac secret decodePayload now (jsTrim ((tokenParam).getD "")) pid) ∧
    (getHandler hmac secret decodePayload true now gw true idParam receiptParam tokenParam =
        .servedReceipt pid ∨
      ∃ m, getHandler hmac secret decodePayload true now gw true idParam receiptParam tokenParam =
        .forbidden m) := by
  have hgh : getHandler hmac secret decodePayload true now gw true idParam receiptParam tokenParam =
      (if jsTrim ((tokenParam).getD "") = "" then
        .forbidden "Token do comprovante e obrigatorio."
      else if (verifyReceiptToken hmac secret decodePayload now
          (jsTrim ((tokenParam).getD "")) pid).1 = false then
        .forbidden ("Token invalido: " ++
          (verifyReceiptToken hmac secret decodePayload now
            (jsTrim ((tokenParam).getD "")) pid).2)
      else .servedReceipt pid) := by
    unfold getHandler
    rw [hid]
    simp only [Bool.not_true, Bool.false_eq_true, if_false, if_neg hpid, hgw, hrc]
    simp
  refine ⟨?_, ?_, ?_⟩
  · intro htok
    rw [hgh, if_pos htok]
  · rw [hgh]
    by_cases htok : jsTrim ((tokenParam).getD "") = ""
    · rw [if_pos htok]
      simp only [htok]
      constructor
      · intro h
        exact absurd h (by simp)
      · intro h
        exact absurd rfl h.1
    · rw [if_neg htok]
      by_cases hver : (verifyReceiptToken hmac secret decodePayload now
          (jsTrim ((tokenParam).getD "")) pid).1 = false
      · rw [if_pos hver]
        constructor
        · intro h
          exact absurd h (by simp)
        · intro h
          have := (verifyReceiptToken_iff hmac secret decodePayload now
            (jsTrim ((tokenParam).getD "")) pid).mpr h.2
          rw [this] at hver
          simp at hver
      · rw [if_neg hver]
        simp only [Bool.not_eq_false] at hver
        constructor
        · intro _
          exact ⟨htok, (verifyReceiptToken_iff hmac secret decodePayload now
            (jsTrim ((tokenParam).getD "")) pid).mp hver⟩
        · intro _
          rfl
  · rw [hgh]
    by_cases htok : jsTrim ((tokenParam).getD "") = ""
    · rw [if_pos htok]
      exact Or.inr ⟨_, rfl⟩
    · rw [if_neg htok]
      by_cases hver : (verifyReceiptToken hmac secret decodePayload now
          (jsTrim ((tokenParam).getD "")) pid).1 = false
      · rw [if_pos hver]
        exact Or.inr ⟨_, rfl⟩
      · rw [if_neg hver]
        exact Or.inl rfl

/-- Witness for `receipt_mode_requires_valid_token`: a concrete valid
token under an abstract HMAC and payload decoder. -/
theorem receipt_mode_requires_valid_token_witness :
    (jsTrim ((some "PL.sek:PL" : Option String).getD "") = "" →
      getHandler (fun s d => s ++ ":" ++ d) "sek"
        (fun s => if s = "PL" then some { pid := some "123", exp := some 10 } else none)
        true 5
        { payments := fun q => if q = "123" then some { id := some "123" } else none }
        true "123" "1" (some "PL.sek:PL") =
        .forbidden "Token do comprovante e obrigatorio.") ∧
    (getHandler (fun s d => s ++ ":" ++ d) "sek"
        (fun s => if s = "PL" then some { pid := some "123", exp := some 10 } else none)
        true 5
        { payments := fun q => if q = "123" then some { id := some "123" } else none }
        true "123" "1" (some "PL.sek:PL") = .servedReceipt "123" ↔
      jsTrim ((some "PL.sek:PL" : Option String).getD "") ≠ "" ∧
        receiptTokenSpec (fun s d => s ++ ":" ++ d) "sek"
          (fun s => if s = "PL" then some { pid := some "123", exp := some 10 } else none)
          5 (jsTrim ((some "PL.sek:PL" : Option String).getD "")) "123") ∧
    (getHandler (fun s d => s ++ ":" ++ d) "sek"
        (fun s => if s = "PL" then some { pid := some "123", exp := some 10 } else none)
        true 5
        { payments := fun q => if q = "123" then some { id := some "123" } else none }
        true "123" "1" (some "PL.sek:PL") = .servedReceipt "123" ∨
      ∃ m, getHandler (fun s d => s ++ ":" ++ d) "sek"
        (fun s => if s = "PL" then some { pid := some "123", exp := some 10 } else none)
        true 5
        { payments := fun q => if q = "123" then some { id := some "123" } else none }
        true "123" "1" (some "PL.sek:PL") = .forbidden m) := by
  exact receipt_mode_requires_valid_token
    (fun s d => s ++ ":" ++ d) "sek"
    (fun s => if s = "PL" then some { pid := some "123", exp := some 10 } else none)
    5
    { payments := fun q => if q = "123" then some { id := some "123" } else none }
    "123" "1" (some "PL.sek:PL") "123" { id := some "123" }
    (by decide) (by decide) (by decide) (by decide)

/-! ## Structural lemmas about the POST flow -/

theorem normalizePaymentId_idem (o : Option String) :
    normalizePaymentId (some (normalizePaymentId o)) = normalizePaymentId o := by
  unfold normalizePaymentId onlyDigits strTake
  dsimp only [Option.getD_some]
  congr 1
  have hfilter : ((((o.getD "").data.filter Char.isDigit).take 32).filter Char.isDigit) =
      (((o.getD "").data.filter Char.isDigit).take 32) := by
    refine List.filter_eq_self.mpr ?_
    intro a ha
    exact (List.mem_filter.mp (List.mem_of_mem_take ha)).2
  rw [hfilter, List.take_take, Nat.min_self]

theorem payerGuardErr_none_method {env : Env} {de : Option String}
    {body : Body} {method : Method}
    (h : payerGuardErr env de body method = none) :
    method = .pix ∨ method = .boleto := by
  cases method with
  | pix => exact Or.inl rfl
  | boleto => exact Or.inr rfl
  | card =>
    exfalso
    unfold payerGuardErr at h
    dsimp only at h
    repeat (split at h; all_goals try contradiction)

/-- Inversion of a successful validation: the derived request is a
`mkValidated` record, so its idempotency key, replace id and floor are
the source expressions. -/
theorem postValidate_ok_inv {sha : String → String} {env : Env} {now : ℤ}
    {de : Option String} {uuid : String} {body : Body} {v : ValidatedReq}
    (hv : postValidate sha env now de uuid body = .ok v) :
    (v.method = .pix ∨ v.method = .boleto) ∧
    getMinFinalCentsForMethod env v.method ≤ v.finalCents ∧
    v.idemKey = stableIdempotencyKey sha
      ("create|" ++ v.extRef ++ "|" ++ methodStr v.method ++ "|" ++ v.fp ++
        "|" ++ v.payerCpf ++ "|" ++ v.payerEmail) ∧
    v.replace = normalizePaymentId body.replace_payment_id ∧
    v.cancel_previous = body.cancel_previous := by
  unfold postValidate at hv
  split at hv
  next method plan billing =>
    split at hv
    next => exact Except.noConfusion hv
    next =>
      split at hv
      next => exact Except.noConfusion hv
      next applied code ed ef el et =>
        split at hv
        next => exact Except.noConfusion hv
        next hguard =>
          replace hv := Except.ok.inj hv
          subst hv
          refine ⟨payerGuardErr_none_method hguard, ?_, rfl, rfl, rfl⟩
          exact floorFinalCents_ge _ _
  next => exact Except.noConfusion hv

theorem planGuardErr_shape {plan : Plan} {billing : Billing} {e : PostResult}
    (h : planGuardErr plan billing = some e) :
    e.deduped = false ∧ e.calls = [] := by
  unfold planGuardErr at h
  dsimp only at h
  repeat (split at h
          · first
            | contradiction
            | (injection h with h2; subst h2; exact ⟨rfl, rfl⟩))
  all_goals try contradiction

set_option maxHeartbeats 1000000 in
theorem payerGuardErr_shape {env : Env} {de : Option String} {body : Body}
    {method : Method} {e : PostResult}
    (h : payerGuardErr env de body method = some e) :
    e.deduped = false ∧ e.calls = [] := by
  unfold payerGuardErr at h
  dsimp only at h
  repeat (split at h
          · injection h with h2; subst h2; exact ⟨rfl, rfl⟩)
  exact Option.noConfusion h

/-- Every error result of the validation region is a fresh `bad(...)`
response: not deduped and without gateway calls. -/
theorem postValidate_error_shape {sha : String → String} {env : Env} {now : ℤ}
    {de : Option String} {uuid : String} {body : Body} {r : PostResult}
    (hv : postValidate sha env now de uuid body = .error r) :
    r.deduped = false ∧ r.calls = [] := by
  unfold postValidate at hv
  split at hv
  next method plan billing =>
    split at hv
    next h =>
      replace hv := Except.error.inj hv
      subst hv
      exact planGuardErr_shape h
    next =>
      split at hv
      next =>
        replace hv := Except.error.inj hv
        subst hv
        exact ⟨rfl, rfl⟩
      next =>
        split at hv
        next h =>
          replace hv := Except.error.inj hv
          subst hv
          exact payerGuardErr_shape h
        next => exact Except.noConfusion hv
  next =>
    replace hv := Except.error.inj hv
    subst hv
    exact ⟨rfl, rfl⟩

theorem dedupLocal_calls_getPayment {env : Env} {gw : Gateway} {now : ℤ}
    {store : String → Option IntentRec} {v : ValidatedReq} :
    ∀ c ∈ (dedupLocal env gw now store v).1, ∃ pid, c = GwCall.getPayment pid := by
  unfold dedupLocal
  repeat' (first | split | dsimp only)
  all_goals intro c hc
  all_goals (first
    | exact absurd hc (List.not_mem_nil c)
    | (simp only [List.mem_singleton] at hc; subst hc; exact ⟨_, rfl⟩))

theorem dedupLocal_some_inv {env : Env} {gw : Gateway} {now : ℤ}
    {store : String → Option IntentRec} {v : ValidatedReq} {r : PostResult}
    (h : (dedupLocal env gw now store v).2 = some r) :
    r.deduped = true ∧ r.ok = true ∧ r.httpStatus = 200 ∧
    (∀ s, r.status = some s → isFinalStatus s = false) ∧
    (∃ ci, r.cancelInfo = some ci ∧ ci.skipped = true) := by
  unfold dedupLocal at h
  repeat' (first
    | (split at h
       all_goals try exact Option.noConfusion h)
    | dsimp only at h)
  rename_i hfin
  replace h := Option.some.inj h
  subst h
  refine ⟨rfl, rfl, rfl, ?_, ⟨_, rfl, rfl⟩⟩
  intro s hs
  dsimp only at hs
  rw [hs] at hfin
  simpa using hfin

theorem dedupSearch_calls_search {gw : Gateway} {now : ℤ} {v : ValidatedReq} :
    ∀ c ∈ (dedupSearch gw now v).1, c = GwCall.search v.extRef := by
  unfold dedupSearch
  repeat' (first | split | dsimp only)
  all_goals intro c hc
  all_goals (simp only [List.mem_singleton] at hc; subst hc; rfl)

theorem dedupSearch_some_inv {gw : Gateway} {now : ℤ} {v : ValidatedReq}
    {r : PostResult} (h : (dedupSearch gw now v).2 = some r) :
    r.deduped = true ∧ r.ok = true ∧ r.httpStatus = 200 ∧
    (∀ s, r.status = some s → isFinalStatus s = false) ∧
    (∃ ci, r.cancelInfo = some ci ∧ ci.skipped = true) := by
  unfold dedupSearch at h
  repeat' (first
    | (split at h
       all_goals try exact Option.noConfusion h)
    | dsimp only at h)
  rename_i hfin
  replace h := Option.some.inj h
  subst h
  refine ⟨rfl, rfl, rfl, ?_, ⟨_, rfl, rfl⟩⟩
  intro s hs
  dsimp only at hs
  rw [hs] at hfin
  simp only [Option.getD_some] at hfin
  simpa using hfin

theorem tryCancelPayment_calls {sha : String → String} {gw : Gateway}
    {traceId pid0 : String} :
    ∀ c ∈ (tryCancelPayment sha gw traceId pid0).1,
      (∃ pid, c = GwCall.getPayment pid) ∨ (∃ pid k, c = GwCall.cancelPayment pid k) := by
  unfold tryCancelPayment
  repeat' (first | split | dsimp only)
  all_goals intro c hc
  all_goals (first
    | exact absurd hc (List.not_mem_nil c)
    | (simp only [List.mem_singleton] at hc; subst hc; exact Or.inl ⟨_, rfl⟩)
    | ((rcases List.mem_pair.mp hc with rfl | rfl) <;> first
        | exact Or.inl ⟨_, rfl⟩
        | exact Or.inr ⟨_, _, rfl⟩))

theorem cancelGuard_calls {sha : String → String} {gw : Gateway}
    {traceId : String} {v : ValidatedReq} :
    ∀ c ∈ (cancelGuard sha gw traceId v).1,
      (∃ pid, c = GwCall.getPayment pid) ∨ (∃ pid k, c = GwCall.cancelPayment pid k) := by
  unfold cancelGuard
  repeat' (first | split | dsimp only)
  all_goals intro c hc
  all_goals (first
    | exact absurd hc (List.not_mem_nil c)
    | (simp only [List.mem_singleton] at hc; subst hc; exact Or.inl ⟨_, rfl⟩)
    | ((rcases List.mem_cons.mp hc with rfl | h2)
       exacts [Or.inl ⟨_, rfl⟩, tryCancelPayment_calls c h2]))

/-- Inversion of a cancel call: the guard and the re-check of
`tryCancelPayment` let a `PUT status=cancelled` through only for the
replace target, only when the re-fetched status is cancellable, and only
when the payment's metadata does not name a different order. -/
theorem cancelGuard_cancel_inv {sha : String → String} {gw : Gateway}
    {traceId : String} {v : ValidatedReq} {pid k : String} {p : MpPayment}
    {s : String}
    (hrepn : normalizePaymentId (some v.replace) = v.replace)
    (hgw : gw.payments v.replace = some p)
    (hs : p.status = some s) (hsne : s ≠ "")
    (hmem : GwCall.cancelPayment pid k ∈ (cancelGuard sha gw traceId v).1) :
    pid = v.replace ∧ isCancellableStatus s = true ∧
    metaOrderMismatch p.metaOrderId v.order_id = false ∧
    toLowerStr s ≠ "approved" := by
  unfold cancelGuard at hmem
  split at hmem
  · rename_i hcp
    rw [hgw] at hmem
    dsimp only at hmem
    rw [hs] at hmem
    simp only [Option.getD_some] at hmem
    split at hmem
    · simp at hmem
    · rename_i hmm2
      split at hmem
      · simp at hmem
      · rename_i happr
        split at hmem
        · simp at hmem
        · rename_i hcanc
          unfold tryCancelPayment at hmem
          rw [hrepn] at hmem
          dsimp only at hmem
          split at hmem
          · rename_i hrep0
            exact absurd hrep0 hcp.2
          · rw [hgw] at hmem
            dsimp only at hmem
            rw [hs] at hmem
            simp only [Option.getD_some] at hmem
            split at hmem
            · simp at hmem
            · rename_i hcur
              simp only [List.mem_cons, List.mem_singleton] at hmem
              rcases hmem with h1 | h1 | h1 | h1
              · exact absurd h1 (by simp)
              · exact absurd h1 (by simp)
              · obtain ⟨rfl, -⟩ : pid = v.replace ∧ k =
                    stableIdempotencyKey sha ("cancel|" ++ v.replace ++ "|" ++ traceId) := by
                  injection h1 with h2 h3
                  exact ⟨h2, h3⟩
                refine ⟨rfl, ?_, ?_, ?_⟩
                · rcases Bool.eq_false_or_eq_true (isCancellableStatus s) with hb | hb
                  · exact hb
                  · exact absurd ⟨hsne, hb⟩ hcur
                · simpa using hmm2
                · exact happr
              · exact absurd h1 (List.not_mem_nil _)
  · split at hmem
    · exact absurd hmem (List.not_mem_nil _)
    · exact absurd hmem (List.not_mem_nil _)

/-- Inversion of a create call: a `payments.create` is issued only after
every dedupe path declined, with the validated request's amount,
payment_method_id, external_reference, idempotency key, fingerprint and
payer identification. -/
theorem postCreate_create_inv {sha : String → String} {env : Env}
    {gw : Gateway} {store : String → Option IntentRec} {now : ℤ}
    {traceId uuid : String} {de : Option String} {body : Body}
    {a : ℤ} {mid ref k fp cpf em : String}
    (hmem : GwCall.createPayment a mid ref k fp cpf em ∈
      (postCreate sha env gw store now traceId uuid de body).calls) :
    ∃ v, postValidate sha env now de uuid body = .ok v ∧
      a = v.finalCents ∧ mid = pmId v.method ∧ ref = v.extRef ∧
      k = v.idemKey ∧ fp = v.fp ∧ cpf = v.payerCpf ∧ em = v.payerEmail := by
  unfold postCreate at hmem
  split at hmem
  · rename_i r heq
    rw [(postValidate_error_shape heq).2] at hmem
    exact absurd hmem (List.not_mem_nil _)
  · rename_i v heq
    dsimp only at hmem
    split at hmem
    · dsimp only at hmem
      obtain ⟨pid, hc⟩ := dedupLocal_calls_getPayment _ hmem
      exact absurd hc (by simp)
    · split at hmem
      · dsimp only at hmem
        rcases List.mem_append.mp hmem with h1 | h1
        · obtain ⟨pid, hc⟩ := dedupLocal_calls_getPayment _ h1
          exact absurd hc (by simp)
        · have hc := dedupSearch_calls_search _ h1
          exact absurd hc (by simp)
      · dsimp only at hmem
        simp only [List.append_assoc, List.mem_append, List.mem_singleton] at hmem
        rcases hmem with h1 | h1 | h1 | h1
        · obtain ⟨pid, hc⟩ := dedupLocal_calls_getPayment _ h1
          exact absurd hc (by simp)
        · have hc := dedupSearch_calls_search _ h1
          exact absurd hc (by simp)
        · rcases cancelGuard_calls _ h1 with ⟨pid, hc⟩ | ⟨pid, k2, hc⟩
          · exact absurd hc (by simp)
          · exact absurd hc (by simp)
        · refine ⟨v, heq, ?_⟩
          injection h1 with h2 h3 h4 h5 h6 h7 h8
          exact ⟨h2, h3, h4, h5, h6, h7, h8⟩

/-! ## Concrete fixtures used by witnesses and counterexamples -/

/-- A fixed stand-in for the sha256 hex digest. -/
def shaH : String → String := fun _ => "H"

/-- A valid pix request body (CPF 529.982.247-25 passes the checksum). -/
def bodyW : Body :=
  { method := some "pix", plan := some "pro", billing := some "monthly",
    payerEmail := some "a@b.com", payerCpf := some "52998224725",
    payerName := some "Ana Silva", order_id := some "ord1" }

/-- An intent store holding a fresh intent for payment 123 whose
fingerprint matches `shaH`-derived fingerprints. -/
def storeW : String → Option IntentRec :=
  fun _ => some { payment_id := "123", createdAt := 0, fingerprint := "H" }

/-- A gateway holding payment 123 in a pending state. -/
def gwW : Gateway :=
  { payments := fun pid =>
      if pid = "123" then some { id := some "123", status := some "pending" } else none }

/-- A gateway holding payment 123 with status `expired`. -/
def gwExpired : Gateway :=
  { payments := fun pid =>
      if pid = "123" then some { id := some "123", status := some "expired" } else none }

theorem method_eq_of_pmId_eq {m1 m2 : Method}
    (h1 : m1 = .pix ∨ m1 = .boleto) (h2 : m2 = .pix ∨ m2 = .boleto)
    (h : pmId m1 = pmId m2) : m1 = m2 := by
  rcases h1 with rfl | rfl <;> rcases h2 with rfl | rfl <;>
    first
      | rfl
      | (exfalso; simp [pmId] at h)

/-! ## Claim C2: purity of the create idempotency key -/

/-- Claim C2: the idempotency key attached to gateway payment creation
is a pure function of (external_reference, payment method, pricing
fingerprint, payer CPF, payer email): two create calls — issued by any
two runs, under any clock values, stores, gateways, uuids or sessions —
that agree on those five request fields carry the same key. -/
theorem idempotency_key_is_pure_function (sha : String → String)
    (env1 env2 : Env) (gw1 gw2 : Gateway)
    (store1 store2 : String → Option IntentRec) (now1 now2 : ℤ)
    (t1 t2 u1 u2 : String) (de1 de2 : Option String) (b1 b2 : Body)
    (a1 a2 : ℤ) (mid1 mid2 ref1 ref2 k1 k2 fp1 fp2 c1 c2 e1 e2 : String)
    (h1 : GwCall.createPayment a1 mid1 ref1 k1 fp1 c1 e1 ∈
      (postCreate sha env1 gw1 store1 now1 t1 u1 de1 b1).calls)
    (h2 : GwCall.createPayment a2 mid2 ref2 k2 fp2 c2 e2 ∈
      (postCreate sha env2 gw2 store2 now2 t2 u2 de2 b2).calls)
    (href : ref1 = ref2) (hmid : mid1 = mid2) (hfp : fp1 = fp2)
    (hcpf : c1 = c2) (hem : e1 = e2) : k1 = k2 := by
  obtain ⟨v1, hv1, -, hmid1, href1, hk1, hfp1, hcpf1, hem1⟩ := postCreate_create_inv h1
  obtain ⟨v2, hv2, -, hmid2, href2, hk2, hfp2, hcpf2, hem2⟩ := postCreate_create_inv h2
  obtain ⟨hm1, -, hkey1, -, -⟩ := postValidate_ok_inv hv1
  obtain ⟨hm2, -, hkey2, -, -⟩ := postValidate_ok_inv hv2
  have hmeq : v1.method = v2.method :=
    method_eq_of_pmId_eq hm1 hm2 (by rw [← hmid1, ← hmid2, hmid])
  have hrefeq : v1.extRef = v2.extRef := by rw [← href1, ← href2, href]
  have hfpeq : v1.fp = v2.fp := by rw [← hfp1, ← hfp2, hfp]
  have hcpfeq : v1.payerCpf = v2.payerCpf := by rw [← hcpf1, ← hcpf2, hcpf]
  have hemeq : v1.payerEmail = v2.payerEmail := by rw [← hem1, ← hem2, hem]
  rw [hk1, hk2, hkey1, hkey2, hmeq, hrefeq, hfpeq, hcpfeq, hemeq]

/-- Witness for `idempotency_key_is_pure_function`: two runs with
different clocks, stores and uuids but the same request fields. -/
theorem idempotency_key_is_pure_function_witness : "H" = "H" := by
  exact idempotency_key_is_pure_function shaH {} {}
    { payments := fun _ => none } { payments := fun _ => none }
    (fun _ => none) (fun _ => none) 0 999 "t1" "t2" "u" "u" none none
    bodyW bodyW 1990 1990 "pix" "pix" "order:ord1:rev:0" "order:ord1:rev:0"
    "H" "H" "H" "H" "52998224725" "52998224725" "a@b.com" "a@b.com"
    (by decide) (by decide) rfl rfl rfl rfl rfl

/-! ## Claim C4: per-method minimum floor -/

/-- Claim C4: every payment-create call issued to the gateway carries a
transaction amount of at least the configured per-method minimum
(`getMinFinalCentsForMethod`, default 100 cents for pix and boleto). -/
theorem created_amount_at_least_method_minimum (sha : String → String)
    (env : Env) (gw : Gateway) (store : String → Option IntentRec) (now : ℤ)
    (traceId uuid : String) (de : Option String) (body : Body)
    (a : ℤ) (mid ref k fp cpf em : String)
    (hmem : GwCall.createPayment a mid ref k fp cpf em ∈
      (postCreate sha env gw store now traceId uuid de body).calls) :
    (mid = "pix" ∨ mid = "bolbradesco") ∧
    getMinFinalCentsForMethod env
      (if mid = "pix" then Method.pix else Method.boleto) ≤ a := by
  obtain ⟨v, hv, ha, hmid, -, -, -, -, -⟩ := postCreate_create_inv hmem
  obtain ⟨hm, hmin, -, -, -⟩ := postValidate_ok_inv hv
  subst ha
  subst hmid
  rcases hm with hmx | hmx
  · rw [hmx] at hmin ⊢
    exact ⟨Or.inl rfl, by simpa [pmId] using hmin⟩
  · rw [hmx] at hmin ⊢
    constructor
    · right
      rfl
    · simpa [pmId] using hmin

/-- Witness for `created_amount_at_least_method_minimum`: the concrete
pix create run (no dedupe hit) with amount 1990 ≥ the default 100-cent
floor. -/
theorem created_amount_at_least_method_minimum_witness :
    (("pix" : String) = "pix" ∨ ("pix" : String) = "bolbradesco") ∧
    getMinFinalCentsForMethod {}
      (if ("pix" : String) = "pix" then Method.pix else Method.boleto) ≤ 1990 := by
  exact created_amount_at_least_method_minimum shaH {}
    { payments := fun _ => none } (fun _ => none) 0 "t" "u" none bodyW
    1990 "pix" "order:ord1:rev:0" "H" "H" "52998224725" "a@b.com"
    (by decide)

/-! ## Claim C1: local dedupe returns the stored payment -/

/-- Claim C1: for a validated pix/boleto create request whose intent
store holds a fresh (within-TTL) entry under the request's
(order_id, revision, method) key with a fingerprint equal to the
currently requested price's fingerprint, and whose stored payment
re-fetches from the gateway with a non-final status, the handler
responds ok with `deduped:true` and the stored payment's id, and never
calls the gateway's payment-create operation. -/
theorem local_dedupe_returns_stored_payment {sha : String → String}
    {env : Env} {gw : Gateway} {store : String → Option IntentRec} {now : ℤ}
    {traceId uuid : String} {de : Option String} {body : Body}
    {v : ValidatedReq} {it : IntentRec} {p : MpPayment}
    (hv : postValidate sha env now de uuid body = .ok v)
    (hit : store v.intentKey = some it)
    (hfresh : ¬ ((JsNum.maxJ (JsNum.ofInt 10) env.intentTtlSeconds).mul
      (JsNum.ofInt 1000)).lt (JsNum.ofInt (now - it.createdAt)))
    (hfp : it.fingerprint = v.fp)
    (hpne : normalizePaymentId (some it.payment_id) ≠ "")
    (hgw : gw.payments (normalizePaymentId (some it.payment_id)) = some p)
    (hid : p.id = some it.payment_id)
    (hnf : isFinalStatus ((p.status).getD "") = false) :
    (postCreate sha env gw store now traceId uuid de body).ok = true ∧
    (postCreate sha env gw store now traceId uuid de body).deduped = true ∧
    (postCreate sha env gw store now traceId uuid de body).httpStatus = 200 ∧
    (postCreate sha env gw store now traceId uuid de body).id = some it.payment_id ∧
    (postCreate sha env gw store now traceId uuid de body).calls.any GwCall.isCreate = false := by
  have hgi : getIntent env now store v.intentKey = some it := by
    unfold getIntent
    rw [hit]
    dsimp only
    rw [if_neg hfresh]
  have hdl : dedupLocal env gw now store v =
      ([.getPayment (normalizePaymentId (some it.payment_id))], some
        { httpStatus := 200, ok := true, deduped := true,
          id := some ((p.id).getD it.payment_id), status := p.status,
          pricing := some v.pricing,
          cancelInfo := some
            { replace_payment_id := it.payment_id, ok := true,
              skipped := true,
              reason := some
                "dedupe local: retornou pagamento existente (ainda nao final)." },
          external_reference := some ((p.external_reference).getD v.extRef),
          order_id := some v.order_id, revision := some v.revision }) := by
    unfold dedupLocal
    rw [hgi]
    dsimp only
    rw [if_neg (fun hh => hh hfp), if_neg hpne, hgw]
    dsimp only
    simp only [hnf, Bool.false_eq_true, if_false]
  unfold postCreate
  rw [hv]
  dsimp only
  rw [hdl]
  dsimp only
  refine ⟨rfl, rfl, rfl, ?_, rfl⟩
  rw [hid]
  rfl

/-- Witness for `local_dedupe_returns_stored_payment`: the concrete
pending payment 123 with a fresh matching intent. -/
theorem local_dedupe_returns_stored_payment_witness :
    (postCreate shaH {} gwW storeW 0 "t" "u" none bodyW).ok = true ∧
    (postCreate shaH {} gwW storeW 0 "t" "u" none bodyW).deduped = true ∧
    (postCreate shaH {} gwW storeW 0 "t" "u" none bodyW).httpStatus = 200 ∧
    (postCreate shaH {} gwW storeW 0 "t" "u" none bodyW).id = some "123" ∧
    (postCreate shaH {} gwW storeW 0 "t" "u" none bodyW).calls.any GwCall.isCreate = false := by
  exact @local_dedupe_returns_stored_payment shaH {} gwW storeW 0 "t" "u" none
    bodyW (mkValidated shaH {} none "u" bodyW .pix .pro .monthly false 0 1990 none none)
    { payment_id := "123", createdAt := 0, fingerprint := "H" }
    { id := some "123", status := some "pending" }
    rfl (by decide) (by decide) (by decide) (by decide) (by decide)
    (by decide) (by decide)

/-! ## Claim C8: which payments the dedupe layer may reuse -/

/-- Claim C8, counterexample: a stored fresh intent whose payment
re-fetches with status `expired` — terminal per the claim — is still
reused: the response is `deduped:true` with status `expired`, because
the code's `isFinalStatus` does not contain `expired`. -/
theorem expired_payment_reused_cex :
    (postCreate shaH {} gwExpired storeW 0 "t" "u" none bodyW).deduped = true ∧
    (postCreate shaH {} gwExpired storeW 0 "t" "u" none bodyW).status = some "expired" ∧
    "expired" ∈ (["approved", "rejected", "cancelled", "expired"] : List String) := by
  refine ⟨by decide, by decide, by decide⟩

/-- Claim C8, amended: the dedupe layer returns an existing payment for
reuse only when its re-fetched status is non-final per the code's
`isFinalStatus`, whose final set is exactly {approved, rejected,
cancelled, refunded, charged_back}; `expired` is not in that set, so an
expired payment may be reused. -/
theorem dedup_reuses_only_nonfinal :
    (∀ (sha : String → String) (env : Env) (gw : Gateway)
      (store : String → Option IntentRec) (now : ℤ) (traceId uuid : String)
      (de : Option String) (body : Body) (s : String),
      (postCreate sha env gw store now traceId uuid de body).deduped = true →
      (postCreate sha env gw store now traceId uuid de body).status = some s →
      isFinalStatus s = false) ∧
    isFinalStatus "approved" = true ∧ isFinalStatus "rejected" = true ∧
    isFinalStatus "cancelled" = true ∧ isFinalStatus "refunded" = true ∧
    isFinalStatus "charged_back" = true ∧ isFinalStatus "expired" = false ∧
    isFinalStatus "pending" = false := by
  refine ⟨?_, by decide, by decide, by decide, by decide, by decide, by decide, by decide⟩
  intro sha env gw store now traceId uuid de body s hded hst
  unfold postCreate at hded hst
  rcases hpv : postValidate sha env now de uuid body with r | v
  · rw [hpv] at hded
    dsimp only at hded
    rw [(postValidate_error_shape hpv).1] at hded
    exact absurd hded (by simp)
  · rw [hpv] at hded hst
    dsimp only at hded hst
    rcases hdl : (dedupLocal env gw now store v).2 with - | r0
    · rw [hdl] at hded hst
      dsimp only at hded hst
      rcases hds : (dedupSearch gw now v).2 with - | r1
      · rw [hds] at hded hst
        dsimp only at hded hst
        exact absurd hded (by simp)
      · rw [hds] at hded hst
        dsimp only at hded hst
        exact (dedupSearch_some_inv hds).2.2.2.1 s hst
    · rw [hdl] at hded hst
      dsimp only at hded hst
      exact (dedupLocal_some_inv hdl).2.2.2.1 s hst

/-- Witness for `dedup_reuses_only_nonfinal`: the concrete pending
reuse run. -/
theorem dedup_reuses_only_nonfinal_witness : isFinalStatus "pending" = false := by
  exact dedup_reuses_only_nonfinal.1 shaH {} gwW storeW 0 "t" "u" none bodyW
    "pending" (by decide) (by decide)

/-! ## Claim C3: the cancellation guard -/

/-- The guard's behaviour on an already-approved replace target: skip,
report, and issue no cancel call (route.ts 2010-2019; the
different-order branch also skips). -/
theorem cancelGuard_approved {sha : String → String} {gw : Gateway}
    {traceId : String} {v : ValidatedReq} {p : MpPayment} {s : String}
    (hcp : v.cancel_previous = true) (hrep : v.replace ≠ "")
    (hgw : gw.payments v.replace = some p) (hs : p.status = some s)
    (happr : toLowerStr s = "approved") :
    (cancelGuard sha gw traceId v).1 = [.getPayment v.replace] ∧
    ∃ ci, (cancelGuard sha gw traceId v).2 = some ci ∧ ci.skipped = true := by
  unfold cancelGuard
  rw [if_pos ⟨hcp, hrep⟩, hgw]
  dsimp only
  rw [hs]
  simp only [Option.getD_some]
  split
  · exact ⟨rfl, _, rfl, rfl⟩
  · exact ⟨rfl, _, rfl, rfl⟩

/-- Claim C3: with `cancel_previous=true` and a replace target whose
re-fetched status is a nonempty `s`: if `s` is `approved` the
cancellation is refused — the response's `cancelInfo` reports
`skipped:true` and no cancel call for that payment is issued; and in
general a cancel call is issued only for the replace target, only when
`s` is in the cancellable set, and only when the payment's metadata
`order_id` does not name a different order. -/
theorem approved_payment_never_cancelled {sha : String → String} {env : Env}
    {gw : Gateway} {store : String → Option IntentRec} {now : ℤ}
    {traceId uuid : String} {de : Option String} {body : Body}
    {v : ValidatedReq} {p : MpPayment} {s : String}
    (hv : postValidate sha env now de uuid body = .ok v)
    (hcp : v.cancel_previous = true) (hrep : v.replace ≠ "")
    (hgw : gw.payments v.replace = some p)
    (hs : p.status = some s) (hsne : s ≠ "") :
    ((toLowerStr s = "approved") →
      (∃ ci, (postCreate sha env gw store now traceId uuid de body).cancelInfo =
        some ci ∧ ci.skipped = true) ∧
      (postCreate sha env gw store now traceId uuid de body).calls.any
        (GwCall.isCancelFor v.replace) = false) ∧
    (∀ pid k, GwCall.cancelPayment pid k ∈
        (postCreate sha env gw store now traceId uuid de body).calls →
      pid = v.replace ∧ isCancellableStatus s = true ∧
      metaOrderMismatch p.metaOrderId v.order_id = false) := by
  have hrepn : normalizePaymentId (some v.replace) = v.replace := by
    rw [(postValidate_ok_inv hv).2.2.2.1]
    exact normalizePaymentId_idem _
  unfold postCreate
  rw [hv]
  dsimp only
  rcases hdl : (dedupLocal env gw now store v).2 with - | r0
  · try rw [hdl]
    dsimp only
    rcases hds : (dedupSearch gw now v).2 with - | r1
    · try rw [hds]
      dsimp only
      constructor
      · intro happr
        obtain ⟨hcg1, ci, hcg2, hcgsk⟩ := cancelGuard_approved hcp hrep hgw hs happr
        constructor
        · exact ⟨ci, by rw [hcg2], hcgsk⟩
        · rw [hcg1]
          refine List.any_eq_false.mpr ?_
          intro c hc
          simp only [List.append_assoc, List.mem_append, List.mem_singleton] at hc
          rcases hc with h1 | h1 | h1 | h1
          · obtain ⟨pid2, rfl⟩ := dedupLocal_calls_getPayment _ h1
            simp [GwCall.isCancelFor]
          · rw [dedupSearch_calls_search _ h1]
            simp [GwCall.isCancelFor]
          · rw [h1]
            simp [GwCall.isCancelFor]
          · rw [h1]
            simp [GwCall.isCancelFor]
      · intro pid k hmem
        simp only [List.append_assoc, List.mem_append, List.mem_singleton] at hmem
        rcases hmem with h1 | h1 | h1 | h1
        · obtain ⟨pid2, hc⟩ := dedupLocal_calls_getPayment _ h1
          exact absurd hc (by simp)
        · have hc := dedupSearch_calls_search _ h1
          exact absurd hc (by simp)
        · have hres := cancelGuard_cancel_inv hrepn hgw hs hsne h1
          exact ⟨hres.1, hres.2.1, hres.2.2.1⟩
        · exact absurd h1 (by simp)
    · try rw [hds]
      dsimp only
      obtain ⟨-, -, -, -, ci, hci, hsk⟩ := dedupSearch_some_inv hds
      constructor
      · intro _
        refine ⟨⟨ci, by rw [hci], hsk⟩, ?_⟩
        refine List.any_eq_false.mpr ?_
        intro c hc
        rcases List.mem_append.mp hc with h1 | h1
        · obtain ⟨pid2, rfl⟩ := dedupLocal_calls_getPayment _ h1
          simp [GwCall.isCancelFor]
        · rw [dedupSearch_calls_search _ h1]
          simp [GwCall.isCancelFor]
      · intro pid k hmem
        rcases List.mem_append.mp hmem with h1 | h1
        · obtain ⟨pid2, hc⟩ := dedupLocal_calls_getPayment _ h1
          exact absurd hc (by simp)
        · have hc := dedupSearch_calls_search _ h1
          exact absurd hc (by simp)
  · try rw [hdl]
    dsimp only
    obtain ⟨-, -, -, -, ci, hci, hsk⟩ := dedupLocal_some_inv hdl
    constructor
    · intro _
      refine ⟨⟨ci, by rw [hci], hsk⟩, ?_⟩
      refine List.any_eq_false.mpr ?_
      intro c hc
      obtain ⟨pid2, rfl⟩ := dedupLocal_calls_getPayment _ hc
      simp [GwCall.isCancelFor]
    · intro pid k hmem
      obtain ⟨pid2, hc⟩ := dedupLocal_calls_getPayment _ hmem
      exact absurd hc (by simp)

/-- A valid pix request body that also asks to replace payment 777. -/
def bodyW3 : Body :=
  { method := some "pix", plan := some "pro", billing := some "monthly",
    payerEmail := some "a@b.com", payerCpf := some "52998224725",
    payerName := some "Ana Silva", order_id := some "ord1",
    replace_payment_id := some "777", cancel_previous := true }

/-- A gateway holding the approved payment 777 for the same order. -/
def gwApproved : Gateway :=
  { payments := fun pid =>
      if pid = "777" then
        some { id := some "777", status := some "approved",
               metaOrderId := some "ord1" }
      else none }

/-- Witness for `approved_payment_never_cancelled`: the concrete
approved replace target 777. -/
theorem approved_payment_never_cancelled_witness :
    ((toLowerStr "approved" = "approved") →
      (∃ ci, (postCreate shaH {} gwApproved (fun _ => none) 0 "t" "u" none bodyW3).cancelInfo =
        some ci ∧ ci.skipped = true) ∧
      (postCreate shaH {} gwApproved (fun _ => none) 0 "t" "u" none bodyW3).calls.any
        (GwCall.isCancelFor (mkValidated shaH {} none "u" bodyW3 .pix .pro .monthly
          false 0 1990 none none).replace) = false) ∧
    (∀ pid k, GwCall.cancelPayment pid k ∈
        (postCreate shaH {} gwApproved (fun _ => none) 0 "t" "u" none bodyW3).calls →
      pid = (mkValidated shaH {} none "u" bodyW3 .pix .pro .monthly
        false 0 1990 none none).replace ∧
      isCancellableStatus "approved" = true ∧
      metaOrderMismatch (some "ord1") (mkValidated shaH {} none "u" bodyW3 .pix .pro
        .monthly false 0 1990 none none).order_id = false) := by
  exact @approved_payment_never_cancelled shaH {} gwApproved (fun _ => none) 0
    "t" "u" none bodyW3
    (mkValidated shaH {} none "u" bodyW3 .pix .pro .monthly false 0 1990 none none)
    { id := some "777", status := some "approved", metaOrderId := some "ord1" }
    "approved"
    rfl (by decide) (by decide) (by decide) (by decide) (by decide)

end Pagment
